import Mathlib

/-!
Verification of the receipt-processing pipeline
(`src/lambda/receipt_textract_processor.py`,
`src/lambda/receipt_bedrock_processor.py`).

Strings are modelled as `List Char`; Python/JSON values as the inductive
`PyVal`; floats as exact rationals (the numeric strings the code converts
are plain decimals, so no rounding behaviour is observable in the claims).
-/

namespace Receipt

/-- Python string truthiness / emptiness check for a char-list string. -/
def strFalsy (s : List Char) : Bool := s.isEmpty

/-- Python `str.strip()` with no argument: remove leading and trailing
whitespace.  We use the ASCII whitespace set, which covers every string
the claims exercise. -/
def isSpace (c : Char) : Bool :=
  c = ' ' ∨ c = '\t' ∨ c = '\n' ∨ c = '\r' ∨ c = '\x0b' ∨ c = '\x0c'

def pyStrip (s : List Char) : List Char :=
  ((s.dropWhile isSpace).reverse.dropWhile isSpace).reverse

/-- Python `str.lower()` (ASCII case mapping, which covers the
classification strings the code compares against). -/
def pyLower (s : List Char) : List Char := s.map Char.toLower

/-- Python `needle in haystack` substring containment. -/
def strContains (haystack needle : List Char) : Bool :=
  (List.range (haystack.length + 1)).any fun i =>
    needle.isPrefixOf (haystack.drop i)

/-- Python `str.replace(c, "")` for a single-character pattern: delete
every occurrence of the character. -/
def strRemoveChar (c : Char) (s : List Char) : List Char :=
  s.filter (fun x => x ≠ c)

/-- Python `str.replace(old, "")` (non-overlapping, left-to-right) for a
non-empty pattern, via a fuel argument so the definition is structural;
`fuel = s.length` always suffices. -/
def strRemoveAux (needle : List Char) : Nat → List Char → List Char
  | 0, s => s
  | _ + 1, [] => []
  | fuel + 1, c :: rest =>
    if needle.isPrefixOf (c :: rest) then
      strRemoveAux needle fuel ((c :: rest).drop needle.length)
    else
      c :: strRemoveAux needle fuel rest

def strRemove (needle s : List Char) : List Char :=
  strRemoveAux needle s.length s

/-- Python (decoded-JSON) values: what `json.loads` can return and what
the handlers pass around. Dicts are insertion-ordered association lists
without duplicate keys (as produced by `json.loads`). -/
inductive PyVal where
  | none : PyVal
  | bool : Bool → PyVal
  | int : Int → PyVal
  | float : ℚ → PyVal
  | str : List Char → PyVal
  | list : List PyVal → PyVal
  | dict : List (List Char × PyVal) → PyVal

namespace PyVal

/-- Python truthiness of a value. -/
def truthy : PyVal → Bool
  | .none => false
  | .bool b => b
  | .int n => n ≠ 0
  | .float q => q ≠ 0
  | .str s => ¬ s.isEmpty
  | .list xs => ¬ xs.isEmpty
  | .dict fs => ¬ fs.isEmpty

/-- Python `d.get(k)` on an association-list dict (`None` when absent). -/
def dictGet (fs : List (List Char × PyVal)) (k : List Char) : PyVal :=
  match fs.find? (fun p => p.1 = k) with
  | Option.none => .none
  | Option.some p => p.2

/-- Python `d.get(k, default)` on an association-list dict. -/
def dictGetD (fs : List (List Char × PyVal)) (k : List Char) (dflt : PyVal) : PyVal :=
  match fs.find? (fun p => p.1 = k) with
  | Option.none => dflt
  | Option.some p => p.2

/-- Python `d[k] = v` on an association-list dict: replace in place when the key
exists (Python keeps the original position), append otherwise.  The
dicts in play are duplicate-free, so replacing the first occurrence is
the Python behaviour. -/
def dictSet : List (List Char × PyVal) → List Char → PyVal → List (List Char × PyVal)
  | [], k, v => [(k, v)]
  | p :: fs, k, v => if p.1 = k then (k, v) :: fs else p :: dictSet fs k v

end PyVal

/-- Decimal digits of a natural number, most significant first
(fuel-structured so the kernel can evaluate it). -/
def natDigitsAux : Nat → Nat → List Char → List Char
  | 0, _, acc => acc
  | fuel + 1, n, acc =>
    let d := Char.ofNat (48 + n % 10)
    if n < 10 then d :: acc else natDigitsAux fuel (n / 10) (d :: acc)

def natDigits (n : Nat) : List Char := natDigitsAux (n + 1) n []

/-- Python `str()` of an integer. -/
def intStr (n : Int) : List Char :=
  if n < 0 then '-' :: natDigits n.natAbs else natDigits n.natAbs

/-- Python `str()` of the values the amount parser can receive.  For
strings it is the string itself; for the scalar types it is the usual
rendering.  Floats are rendered from the exact rational with one decimal
digit when integral (Python prints `5.0` for the float 5), which is the
only float rendering the claims exercise; containers use a placeholder
rendering (never reached under the claims' hypotheses). -/
def pyStr : PyVal → List Char
  | .none => ['N','o','n','e']
  | .bool true => ['T','r','u','e']
  | .bool false => ['F','a','l','s','e']
  | .int n => intStr n
  | .float q =>
    if q.den = 1 then intStr q.num ++ ['.', '0']
    else intStr q.num ++ ['/'] ++ natDigits q.den
  | .str s => s
  | .list _ => ['[',']']
  | .dict _ => ['{','}']

/-- The optional fractional part of the regex `[0-9]+(?:\.[0-9]+)?`: if
the text after the integer digits starts with a dot followed by a digit,
the match extends with the dot and the maximal digit run after it. -/
def fracExt (after : List Char) : List Char :=
  match after with
  | a :: d :: rest =>
    if a = '.' ∧ d.isDigit then '.' :: (d :: rest).takeWhile Char.isDigit else []
  | _ => []

/-- First match of the regex `[0-9]+(?:\.[0-9]+)?`: scan to the first
digit, take the maximal digit run, then optionally a dot plus following
digits. -/
def firstNumRun : List Char → Option (List Char)
  | [] => Option.none
  | c :: rest =>
    if c.isDigit then
      Option.some ((c :: rest).takeWhile Char.isDigit
        ++ fracExt ((c :: rest).dropWhile Char.isDigit))
    else firstNumRun rest

/-- Exact numeric value of a matched run `digits(.digits)?` as a
rational (the value `float()` denotes on such strings). -/
def numRunVal (s : List Char) : ℚ :=
  let intPart := s.takeWhile Char.isDigit
  let rest := s.dropWhile Char.isDigit
  let frac := rest.drop 1
  let iv : ℕ := intPart.foldl (fun a c => a * 10 + (c.toNat - 48)) 0
  let fv : ℕ := frac.foldl (fun a c => a * 10 + (c.toNat - 48)) 0
  (iv : ℚ) + (fv : ℚ) / ((10 : ℚ) ^ frac.length)

/-- The function `parse_amount` (receipt_bedrock_processor.py lines 23-33): falsy
input gives no value; otherwise `str()` the input, delete commas, strip,
delete the rupee/dollar/euro symbols, and take the first
`[0-9]+(?:\.[0-9]+)?` run as a float.  The conversion of a matched run
never fails, so the except-branch is unreachable. -/
def parse_amount (s : PyVal) : Option ℚ :=
  if ¬ s.truthy then Option.none
  else
    let s1 := pyStrip (strRemoveChar ',' (pyStr s))
    let cleaned := strRemoveChar '€' (strRemoveChar '$' (strRemoveChar '₹' s1))
    match firstNumRun cleaned with
    | Option.some run => Option.some (numRunVal run)
    | Option.none => Option.none

/-- The function `extract_currency` (receipt_bedrock_processor.py lines 69-78) on an
optional string (its argument is a string or `None` at every call site
the claims cover). -/
def extract_currency (s : Option (List Char)) : List Char :=
  match s with
  | Option.none => []
  | Option.some t =>
    if t.isEmpty then []
    else if strContains t ['₹'] ∨ strContains t ['I','N','R'] ∨ strContains t ['R','s'] then
      ['I','N','R']
    else if strContains t ['$'] then ['U','S','D']
    else if strContains t ['€'] then ['E','U','R']
    else []

/-- Injection of the claims' "optional string" input into Python values. -/
def pyOfOptStr : Option (List Char) → PyVal
  | Option.none => .none
  | Option.some t => .str t

/-- The amount algorithm exactly as claim C5 words it (to be compared
with `parse_amount`): absent input gives no value; otherwise delete the
comma thousands-separators and the rupee, dollar and euro symbols, and
the first `digits(.digits)?` run gives the float value. -/
def parse_amount_claim (s : Option (List Char)) : Option ℚ :=
  match s with
  | Option.none => Option.none
  | Option.some t =>
    (firstNumRun (strRemoveChar '€' (strRemoveChar '$' (strRemoveChar '₹'
      (strRemoveChar ',' t))))).map numRunVal

/-! ### A model of Python's strict JSON decoder (`json.loads`)

The handlers call the standard library's `json.loads`, which is not part
of the repository's code; it is embedded here at the level of detail the
claims need: the standard JSON grammar with strict semantics (trailing
data rejected, duplicate object keys resolved last-wins, whitespace
` \t\n\r` skipped between tokens).  The non-standard NaN/Infinity
extension is not modelled; no claim exercises it. -/
/-- JSON inter-token whitespace. -/
def jsonWs (c : Char) : Bool := c = ' ' ∨ c = '\t' ∨ c = '\n' ∨ c = '\r'

def digitsToNat (ds : List Char) : Nat :=
  ds.foldl (fun a c => a * 10 + (c.toNat - 48)) 0

/-- One JSON escape character (after a backslash). -/
def escChar : Char → Option Char
  | '"' => Option.some '"'
  | '\\' => Option.some '\\'
  | '/' => Option.some '/'
  | 'b' => Option.some '\x08'
  | 'f' => Option.some '\x0c'
  | 'n' => Option.some '\n'
  | 'r' => Option.some '\r'
  | 't' => Option.some '\t'
  | _ => Option.none

def hexVal (c : Char) : Option Nat :=
  if c.isDigit then Option.some (c.toNat - 48)
  else if 'a' ≤ c ∧ c ≤ 'f' then Option.some (c.toNat - 87)
  else if 'A' ≤ c ∧ c ≤ 'F' then Option.some (c.toNat - 55)
  else Option.none

/-- Body of a JSON string after the opening quote: returns the decoded
characters and the input after the closing quote. -/
def parseStringBody : List Char → Option (List Char × List Char)
  | [] => Option.none
  | c :: rest =>
    if c = '"' then Option.some ([], rest)
    else if c = '\\' then
      match rest with
      | [] => Option.none
      | e :: rest2 =>
        if e = 'u' then
          match rest2 with
          | h1 :: h2 :: h3 :: h4 :: rest3 =>
            match hexVal h1, hexVal h2, hexVal h3, hexVal h4 with
            | Option.some a, Option.some b, Option.some c', Option.some d =>
              (parseStringBody rest3).map
                (fun p => (Char.ofNat (((a * 16 + b) * 16 + c') * 16 + d) :: p.1, p.2))
            | _, _, _, _ => Option.none
          | _ => Option.none
        else
          match escChar e with
          | Option.some r => (parseStringBody rest2).map (fun p => (r :: p.1, p.2))
          | Option.none => Option.none
    else if c.toNat < 32 then Option.none
    else (parseStringBody rest).map (fun p => (c :: p.1, p.2))

/-- Optional exponent part of a JSON number; `(0, s)` when absent. -/
def parseExpDigits (s : List Char) (neg : Bool) : Option (Int × List Char) :=
  let ds := s.takeWhile Char.isDigit
  if ds.isEmpty then Option.none
  else
    Option.some (if neg then -(digitsToNat ds : Int) else (digitsToNat ds : Int),
      s.dropWhile Char.isDigit)

def parseExpPart (s : List Char) : Option (Int × List Char) :=
  match s with
  | c :: r =>
    if c = 'e' ∨ c = 'E' then
      match r with
      | '+' :: r2 => parseExpDigits r2 false
      | '-' :: r2 => parseExpDigits r2 true
      | _ => parseExpDigits r false
    else Option.some (0, s)
  | [] => Option.some (0, [])

/-- A JSON number starting at the head of the input (int when it has no
fraction and no exponent, float otherwise, with the exact decimal value
as a rational). -/
def parseNumber (s : List Char) : Option (PyVal × List Char) :=
  let negs : Bool × List Char := match s with | '-' :: r => (true, r) | _ => (false, s)
  let neg := negs.1
  let s1 := negs.2
  let intDs := s1.takeWhile Char.isDigit
  let r1 := s1.dropWhile Char.isDigit
  if intDs.isEmpty then Option.none
  else if 2 ≤ intDs.length ∧ intDs.head? = Option.some '0' then Option.none
  else
    match r1 with
    | '.' :: r2 =>
      let fracDs := r2.takeWhile Char.isDigit
      if fracDs.isEmpty then Option.none
      else
        match parseExpPart (r2.dropWhile Char.isDigit) with
        | Option.some (e, r3) =>
          let mag : ℚ := ((digitsToNat intDs : ℚ)
            + (digitsToNat fracDs : ℚ) / (10 : ℚ) ^ fracDs.length) * (10 : ℚ) ^ (e : ℤ)
          Option.some (PyVal.float (if neg then -mag else mag), r3)
        | Option.none => Option.none
    | _ =>
      match parseExpPart r1 with
      | Option.some (e, r3) =>
        if r1.head? = Option.some 'e' ∨ r1.head? = Option.some 'E' then
          let mag : ℚ := (digitsToNat intDs : ℚ) * (10 : ℚ) ^ (e : ℤ)
          Option.some (PyVal.float (if neg then -mag else mag), r3)
        else
          Option.some (PyVal.int
            (if neg then -(digitsToNat intDs : Int) else (digitsToNat intDs : Int)), r1)
      | Option.none => Option.none

mutual

/-- One JSON value (with leading whitespace) plus the remaining input. -/
def parseValue : Nat → List Char → Option (PyVal × List Char)
  | 0, _ => Option.none
  | fuel + 1, s =>
    match s.dropWhile jsonWs with
    | '{' :: rest =>
      (match rest.dropWhile jsonWs with
       | '}' :: r1 => Option.some (PyVal.dict [], r1)
       | _ => parseObjLoop fuel rest [])
    | '[' :: rest =>
      (match rest.dropWhile jsonWs with
       | ']' :: r1 => Option.some (PyVal.list [], r1)
       | _ => parseArrLoop fuel rest [])
    | '"' :: rest => (parseStringBody rest).map (fun p => (PyVal.str p.1, p.2))
    | 't' :: 'r' :: 'u' :: 'e' :: rest => Option.some (PyVal.bool true, rest)
    | 'f' :: 'a' :: 'l' :: 's' :: 'e' :: rest => Option.some (PyVal.bool false, rest)
    | 'n' :: 'u' :: 'l' :: 'l' :: rest => Option.some (PyVal.none, rest)
    | c :: rest =>
      if c = '-' ∨ c.isDigit then parseNumber (c :: rest) else Option.none
    | [] => Option.none

/-- Members of a JSON object after `{` (at least one member present). -/
def parseObjLoop : Nat → List Char → List (List Char × PyVal) →
    Option (PyVal × List Char)
  | 0, _, _ => Option.none
  | fuel + 1, s, acc =>
    match s.dropWhile jsonWs with
    | '"' :: rest =>
      (match parseStringBody rest with
       | Option.some (k, r1) =>
         (match r1.dropWhile jsonWs with
          | ':' :: r2 =>
            (match parseValue fuel r2 with
             | Option.some (v, r3) =>
               let acc' := PyVal.dictSet acc k v
               (match r3.dropWhile jsonWs with
                | ',' :: r4 => parseObjLoop fuel r4 acc'
                | '}' :: r4 => Option.some (PyVal.dict acc', r4)
                | _ => Option.none)
             | Option.none => Option.none)
          | _ => Option.none)
       | Option.none => Option.none)
    | _ => Option.none

/-- Elements of a JSON array after `[` (at least one element present). -/
def parseArrLoop : Nat → List Char → List PyVal → Option (PyVal × List Char)
  | 0, _, _ => Option.none
  | fuel + 1, s, acc =>
    match parseValue fuel s with
    | Option.some (v, r1) =>
      (match r1.dropWhile jsonWs with
       | ',' :: r2 => parseArrLoop fuel r2 (acc ++ [v])
       | ']' :: r2 => Option.some (PyVal.list (acc ++ [v]), r2)
       | _ => Option.none)
    | Option.none => Option.none

end

/-- Model of `json.loads`: strict decoding of one JSON document, rejecting
trailing non-whitespace data; `none` models a raised decode error. -/
def json_loads (s : List Char) : Option PyVal :=
  match parseValue (s.length + 1) s with
  | Option.some (v, rest) =>
    if (rest.dropWhile jsonWs).isEmpty then Option.some v else Option.none
  | Option.none => Option.none

/-! ### The model-output parser (`parse_bedrock_output`) -/
/-- The literal separator token `===JSON===`. -/
def sepToken : List Char := "===JSON===".data

/-- Python `str.split(sep)` for a non-empty separator: non-overlapping,
left-to-right, keeping empty pieces (fuel-structured; `s.length + 1`
always suffices for a non-empty separator). -/
def splitOnAux (sep : List Char) : Nat → List Char → List Char → List (List Char)
  | 0, s, cur => [cur.reverse ++ s]
  | _ + 1, [], cur => [cur.reverse]
  | fuel + 1, c :: rest, cur =>
    if sep.isPrefixOf (c :: rest) then
      cur.reverse :: splitOnAux sep fuel ((c :: rest).drop sep.length) []
    else splitOnAux sep fuel rest (c :: cur)

def pySplit (s sep : List Char) : List (List Char) :=
  splitOnAux sep (s.length + 1) s []

/-- Model of `re.search` for the dot-all brace pattern: the leftmost match of the
greedy dot-all pattern runs from the first `{` to the last `}` of the
text, and exists exactly when some `}` follows the first `{`. -/
def braceSpan (s : List Char) : Option (List Char) :=
  match s.dropWhile (fun c => c ≠ '{') with
  | [] => Option.none
  | c :: tail =>
    let rest := c :: tail
    let afterLast := (rest.reverse.takeWhile (fun c => c ≠ '}')).length
    if afterLast = rest.length then Option.none
    else Option.some (rest.take (rest.length - afterLast))

/-- The summary piece `parts[0].strip()` of the separator split (the summary line). -/
def summaryOf (raw : List Char) : List Char :=
  pyStrip (pySplit raw sepToken).headI

/-- The piece `parts[1].strip() if len(parts) > 1 else the empty string`: the JSON part is the
piece between the first and second separator occurrences. -/
def jsonPartOf (raw : List Char) : List Char :=
  match (pySplit raw sepToken).get? 1 with
  | Option.some p => pyStrip p
  | Option.none => []

/-- The `parsed_json` computation of `parse_bedrock_output`: an empty
JSON part keeps the initial `{}`; otherwise strict-parse it, recovering
on failure by strict-parsing the brace span of the whole raw text,
degrading to the empty mapping. -/
def fieldsOf (raw json_part : List Char) : PyVal :=
  if json_part.isEmpty then PyVal.dict []
  else
    match json_loads json_part with
    | Option.some v => v
    | Option.none =>
      match braceSpan raw with
      | Option.some m =>
        (match json_loads m with
         | Option.some v => v
         | Option.none => PyVal.dict [])
      | Option.none => PyVal.dict []

/-- The function `parse_bedrock_output` (receipt_bedrock_processor.py lines 177-200). -/
def parse_bedrock_output (raw : List Char) : List Char × PyVal :=
  if raw.isEmpty then ([], PyVal.dict [])
  else (summaryOf raw, fieldsOf raw (jsonPartOf raw))

/-- The fields computation exactly as claim C1 words it: the candidate
(everything after the FIRST separator occurrence) is strict-JSON-parsed
unconditionally, recovering through the brace span of the raw text. -/
def fieldsOfClaimC1 (raw candidate : List Char) : PyVal :=
  match json_loads candidate with
  | Option.some v => v
  | Option.none =>
    match braceSpan raw with
    | Option.some m =>
      (match json_loads m with
       | Option.some v => v
       | Option.none => PyVal.dict [])
    | Option.none => PyVal.dict []

/-- The split contract exactly as claim C1 words it (to be compared with
`parse_bedrock_output`): everything before the first separator
occurrence, trimmed, is the summary line; everything after the first
occurrence, trimmed, is the JSON candidate; separator absent means the
whole text is the summary and fields is empty. -/
def parse_bedrock_output_claimC1 (raw : List Char) : List Char × PyVal :=
  match pySplit raw sepToken with
  | [] => ([], PyVal.dict [])
  | [only] => (pyStrip only, PyVal.dict [])
  | first :: rest =>
    (pyStrip first, fieldsOfClaimC1 raw (pyStrip (List.intercalate sepToken rest)))

/-- Claim C1 as amended: the JSON candidate is the piece strictly
between the first and second separator occurrences (everything after the
first when the separator occurs exactly once), and an empty candidate
skips JSON recovery, leaving fields empty. -/
def parse_bedrock_output_amendedC1 (raw : List Char) : List Char × PyVal :=
  match pySplit raw sepToken with
  | [] => ([], PyVal.dict [])
  | [only] => (pyStrip only, PyVal.dict [])
  | first :: second :: _ =>
    let candidate := pyStrip second
    (pyStrip first,
      if candidate.isEmpty then PyVal.dict [] else fieldsOfClaimC1 raw candidate)

/-- Whether a Python value is a mapping. -/
def PyVal.isDict : PyVal → Bool
  | .dict _ => true
  | _ => false

/-! ### The normalization stage (lambda_handler lines 251-252) -/
/-- Python `x or y` on values. -/
def pyOr (x y : PyVal) : PyVal := if x.truthy then x else y

/-- View of a value as the optional string `extract_currency` receives;
the handler reaches it only with a string or None total (the summary's
`Total` is an optional string), which the C2 theorem's hypothesis
reflects. -/
def asOptStr : PyVal → Option (List Char)
  | .str s => Option.some s
  | _ => Option.none

/-- Whether a value is a string or None (the faithful domain of the
normalization model). -/
def strOrNone : PyVal → Bool
  | .str _ => true
  | .none => true
  | _ => false

/-- The stored result of `parse_amount` (a float or None). -/
def pyOfOptFloat : Option ℚ → PyVal
  | Option.some q => .float q
  | Option.none => .none

/-- The two normalization assignments of `lambda_handler`
(receipt_bedrock_processor.py lines 251-252): amount from the model's
field or else the raw total, through `parse_amount`; currency from the
model's field or else `extract_currency` of the raw total. -/
def normalize_fields (fields summary_data : List (List Char × PyVal)) :
    List (List Char × PyVal) :=
  let f1 := PyVal.dictSet fields "amount".data
    (pyOfOptFloat (parse_amount
      (pyOr (PyVal.dictGet fields "amount".data)
            (PyVal.dictGet summary_data "Total".data))))
  PyVal.dictSet f1 "currency".data
    (pyOr (PyVal.dictGet f1 "currency".data)
      (PyVal.str (extract_currency (asOptStr
        (PyVal.dictGetD summary_data "Total".data (PyVal.str []))))))

/-! ### Envelope text extraction (`call_bedrock_messages`, lines 127-174)

The post-invocation part of `call_bedrock_messages` decodes the response
body and digs the generated text out of it.  Attribute access `.get` on
a non-dict and iteration over a non-iterable raise in Python; the model
threads those as `Except.error ()`. -/
/-- Python `v.get(k, dflt)`: a dict lookup, raising on any non-dict. -/
def pyGetE : PyVal → List Char → PyVal → Except Unit PyVal
  | .dict fs, k, dflt => Except.ok (PyVal.dictGetD fs k dflt)
  | _, _, _ => Except.error ()

/-- Python `for` iteration: lists yield elements, strings yield
single-character strings, dicts yield their keys; other values raise. -/
def pyIterE : PyVal → Except Unit (List PyVal)
  | .list xs => Except.ok xs
  | .str s => Except.ok (s.map (fun c => PyVal.str [c]))
  | .dict fs => Except.ok (fs.map (fun p => PyVal.str p.1))
  | _ => Except.error ()

/-- Python `v == "lit"`: true only for the equal string (never raises). -/
def eqStrVal (v : PyVal) (s : List Char) : Bool :=
  match v with
  | .str t => t = s
  | _ => false

/-- The newer-schema loop (lines 137-141): first dict item of the
content list whose `type` is `"text"` and whose `text` is truthy. -/
def pathA_loop : List PyVal → Option PyVal
  | [] => Option.none
  | c :: rest =>
    match c with
    | .dict fs =>
      if eqStrVal (PyVal.dictGet fs "type".data) "text".data
          ∧ (PyVal.dictGet fs "text".data).truthy then
        Option.some (PyVal.dictGet fs "text".data)
      else pathA_loop rest
    | _ => pathA_loop rest

/-- The older-schema inner loop (lines 149-154): items of a message's
content list; `.get` on a non-dict item raises. -/
def pathB_inner : List PyVal → Except Unit (Option PyVal)
  | [] => Except.ok Option.none
  | c :: rest =>
    (pyGetE c "type".data PyVal.none).bind fun t =>
    (pyGetE c "text".data PyVal.none).bind fun x =>
    if eqStrVal t "text".data ∧ x.truthy then Except.ok (Option.some x)
    else pathB_inner rest

/-- The older-schema outer loop (lines 147-154) over the outputs list. -/
def pathB_outer : List PyVal → Except Unit (Option PyVal)
  | [] => Except.ok Option.none
  | out :: rest =>
    (pyGetE out "type".data PyVal.none).bind fun t =>
    if eqStrVal t "message".data then
      (pyGetE out "content".data (PyVal.list [])).bind fun content =>
      (pyIterE content).bind fun items =>
      (pathB_inner items).bind fun r =>
      match r with
      | Option.some v => Except.ok (Option.some v)
      | Option.none => pathB_outer rest
    else pathB_outer rest

/-- View of a value as a string, when it is one. -/
def asStr? : PyVal → Option (List Char)
  | .str s => Option.some s
  | _ => Option.none

mutual

/-- The recursive last-resort search (lines 158-171): the first value of
a key literally named `"text"` that is a string (returned even when
empty, which aborts the search), else depth-first into dict values and
list items, where an empty-string result is treated as not found. -/
def find_text : PyVal → Option (List Char)
  | .dict fs => find_text_pairs fs
  | .list xs => find_text_list xs
  | _ => Option.none

def find_text_pairs : List (List Char × PyVal) → Option (List Char)
  | [] => Option.none
  | (k, v) :: rest =>
    match (if k = "text".data then asStr? v else Option.none) with
    | Option.some s => Option.some s
    | Option.none =>
      match find_text v with
      | Option.some res =>
        if res.isEmpty then find_text_pairs rest else Option.some res
      | Option.none => find_text_pairs rest

def find_text_list : List PyVal → Option (List Char)
  | [] => Option.none
  | v :: rest =>
    match find_text v with
    | Option.some res => if res.isEmpty then find_text_list rest else Option.some res
    | Option.none => find_text_list rest

end

/-- The text-extraction tail of `call_bedrock_messages` (lines 127-174),
written exactly in the code's sequential `text_out` style: decode or
fall back to the raw string; try the newer schema; if no text yet, the
older schema; if still none, the recursive search; finally return the
text if truthy, else the raw string. -/
def call_bedrock_extract (raw : List Char) : Except Unit PyVal :=
  match json_loads raw with
  | Option.none => Except.ok (PyVal.str raw)
  | Option.some parsed =>
    (pyGetE parsed "output".data (PyVal.dict [])).bind fun outputVal =>
    (pyGetE outputVal "content".data (PyVal.list [])).bind fun content =>
    let t1 : Option PyVal :=
      match content with
      | .list xs => pathA_loop xs
      | _ => Option.none
    (if t1.isSome then Except.ok t1
     else
       (pyGetE parsed "outputs".data (PyVal.list [])).bind fun outputs =>
       match outputs with
       | .list outs => pathB_outer outs
       | _ => Except.ok Option.none).bind fun t2 =>
    let t3 : Option PyVal :=
      match t2 with
      | Option.some t => Option.some t
      | Option.none => (find_text parsed).map PyVal.str
    Except.ok (match t3 with
      | Option.some t => if t.truthy then t else PyVal.str raw
      | Option.none => PyVal.str raw)

/-- Path (a) of claim C3, as a self-contained attempt. -/
def pathA (parsed : PyVal) : Except Unit (Option PyVal) :=
  (pyGetE parsed "output".data (PyVal.dict [])).bind fun outputVal =>
  (pyGetE outputVal "content".data (PyVal.list [])).bind fun content =>
  match content with
  | .list xs => Except.ok (pathA_loop xs)
  | _ => Except.ok Option.none

/-- Path (b) of claim C3, as a self-contained attempt. -/
def pathB (parsed : PyVal) : Except Unit (Option PyVal) :=
  (pyGetE parsed "outputs".data (PyVal.list [])).bind fun outputs =>
  match outputs with
  | .list outs => pathB_outer outs
  | _ => Except.ok Option.none

/-! ### A model of Python's `json.dumps`

`parse_textract_expense` serializes the whole response with the default
`json.dumps` settings: item separator `", "`, key separator `": "`, and
`ensure_ascii=True` (non-ASCII characters escaped as `\uXXXX`).  The
serializer is fuel-structured via a work list so the kernel can evaluate
it; the fuel bound comfortably exceeds the number of work items. -/
def hexDigit (n : Nat) : Char := Char.ofNat (if n < 10 then 48 + n else 87 + n)

def hex4 (n : Nat) : List Char :=
  [hexDigit (n / 4096 % 16), hexDigit (n / 256 % 16), hexDigit (n / 16 % 16),
   hexDigit (n % 16)]

/-- JSON escaping of one character under `ensure_ascii=True`. -/
def escCharDump (c : Char) : List Char :=
  if c = '"' then ['\\', '"']
  else if c = '\\' then ['\\', '\\']
  else if c = '\n' then ['\\', 'n']
  else if c = '\r' then ['\\', 'r']
  else if c = '\t' then ['\\', 't']
  else if c = '\x08' then ['\\', 'b']
  else if c = '\x0c' then ['\\', 'f']
  else if c.toNat < 32 then '\\' :: 'u' :: hex4 c.toNat
  else if c.toNat < 127 then [c]
  else if c.toNat < 65536 then '\\' :: 'u' :: hex4 c.toNat
  else ('\\' :: 'u' :: hex4 (55296 + (c.toNat - 65536) / 1024))
    ++ ('\\' :: 'u' :: hex4 (56320 + (c.toNat - 65536) % 1024))

def escStr (s : List Char) : List Char := (s.map escCharDump).flatten

mutual

/-- Node count of a value (an upper-bound driver for the serializer's
fuel). -/
def pySize : PyVal → Nat
  | .none => 1
  | .bool _ => 1
  | .int _ => 1
  | .float _ => 1
  | .str _ => 1
  | .list xs => pySizeArr xs + 1
  | .dict fs => pySizeObj fs + 1

def pySizeArr : List PyVal → Nat
  | [] => 1
  | x :: xs => pySize x + pySizeArr xs + 1

def pySizeObj : List (List Char × PyVal) → Nat
  | [] => 1
  | p :: fs => pySize p.2 + pySizeObj fs + 1

end

/-- Serialization of a float; the claims never dump a float (the
responses the handlers serialize carry strings), so only the integral
rendering matters. -/
def floatDump (q : ℚ) : List Char :=
  if q.den = 1 then intStr q.num ++ ['.', '0']
  else intStr q.num ++ ['/'] ++ natDigits q.den

def arrItems : List PyVal → List (PyVal ⊕ List Char)
  | [] => []
  | [x] => [Sum.inl x]
  | x :: xs => Sum.inl x :: Sum.inr [',', ' '] :: arrItems xs

def objItems : List (List Char × PyVal) → List (PyVal ⊕ List Char)
  | [] => []
  | [(k, v)] => [Sum.inr ('"' :: escStr k ++ ['"', ':', ' ']), Sum.inl v]
  | (k, v) :: fs =>
    Sum.inr ('"' :: escStr k ++ ['"', ':', ' ']) :: Sum.inl v
      :: Sum.inr [',', ' '] :: objItems fs

/-- Work-list serializer: each step emits one literal or one value,
pushing a list's or dict's pieces back onto the work list. -/
def dumpsAux : Nat → List (PyVal ⊕ List Char) → List Char
  | 0, _ => []
  | _ + 1, [] => []
  | fuel + 1, Sum.inr lit :: rest => lit ++ dumpsAux fuel rest
  | fuel + 1, Sum.inl v :: rest =>
    match v with
    | .none => ['n','u','l','l'] ++ dumpsAux fuel rest
    | .bool true => ['t','r','u','e'] ++ dumpsAux fuel rest
    | .bool false => ['f','a','l','s','e'] ++ dumpsAux fuel rest
    | .int n => intStr n ++ dumpsAux fuel rest
    | .float q => floatDump q ++ dumpsAux fuel rest
    | .str s => ('"' :: escStr s ++ ['"']) ++ dumpsAux fuel rest
    | .list xs => '[' :: dumpsAux fuel (arrItems xs ++ Sum.inr [']'] :: rest)
    | .dict fs => '{' :: dumpsAux fuel (objItems fs ++ Sum.inr ['}'] :: rest)

def pyDumps (v : PyVal) : List Char :=
  dumpsAux (8 * (pySize v + 2)) [Sum.inl v]

/-! ### The fallback regexes of `parse_textract_expense`

Total: `([₹$€]\s?\d{1,3}(?:[,\d{3}]*)(?:\.\d{2})?)` — note that
`[,\d{3}]` is a character class containing the comma, the digits and
the literal braces, which the model reproduces faithfully.
Date: `(\b\d{1,2}[\/\-\s]\d{1,2}[\/\-\s]\d{2,4}\b)`. -/
def isCurrencySym (c : Char) : Bool := c = '₹' ∨ c = '$' ∨ c = '€'

/-- The `[,\d{3}]` character class: comma, digit, or a literal brace. -/
def totalClassChar (c : Char) : Bool := c = ',' ∨ c = '{' ∨ c = '}' ∨ c.isDigit

/-- After the symbol and optional space: `\d{1,3}[,\d{3}]*(\.\d{2})?`.
The quantifiers need no backtracking: the class-star absorbs any digits
past the first three, and everything after the mandatory digits is
optional. -/
def matchNumPart (s : List Char) : Option (List Char) :=
  let d1 := s.takeWhile Char.isDigit
  if d1.isEmpty then Option.none
  else
    let dTaken := d1.take 3
    let after1 := s.drop dTaken.length
    let cls := after1.takeWhile totalClassChar
    let after2 := after1.drop cls.length
    let deci : List Char :=
      match after2 with
      | '.' :: a :: b :: _ => if a.isDigit ∧ b.isDigit then ['.', a, b] else []
      | _ => []
    Option.some (dTaken ++ cls ++ deci)

/-- One attempt of the total pattern at the current position: a currency
symbol, an optional single whitespace (which must then be followed by a
digit), and the numeric part. -/
def matchTotalAt (s : List Char) : Option (List Char) :=
  match s with
  | [] => Option.none
  | c :: rest =>
    if isCurrencySym c then
      match rest with
      | [] => Option.none
      | w :: r2 =>
        if isSpace w then (matchNumPart r2).map (fun m => c :: w :: m)
        else (matchNumPart rest).map (fun m => c :: m)
    else Option.none

/-- Model of `re.search` of the total pattern: the leftmost position where the
pattern matches. -/
def firstTotalMatch : List Char → Option (List Char)
  | [] => Option.none
  | c :: rest =>
    match matchTotalAt (c :: rest) with
    | Option.some m => Option.some m
    | Option.none => firstTotalMatch rest

def isSepCls (c : Char) : Bool := c = '/' ∨ c = '-' ∨ isSpace c

def isWordChar (c : Char) : Bool := c.isAlphanum ∨ c = '_'

/-- Exactly `n` leading digits (failing when fewer are available). -/
def takeDigits (n : Nat) (s : List Char) : Option (List Char × List Char) :=
  if n ≤ (s.takeWhile Char.isDigit).length then Option.some (s.take n, s.drop n)
  else Option.none

/-- Pattern `\d{n}\b`: n digits followed by a word boundary. -/
def tryDigitsBoundary (n : Nat) (s : List Char) : Option (List Char) :=
  match takeDigits n s with
  | Option.some (ds, rest) =>
    match rest with
    | [] => Option.some ds
    | c :: _ => if isWordChar c then Option.none else Option.some ds
  | Option.none => Option.none

/-- Pattern `\d{2,4}\b` with greedy backtracking: try 4, then 3, then 2. -/
def matchD3 (s : List Char) : Option (List Char) :=
  match tryDigitsBoundary 4 s with
  | Option.some ds => Option.some ds
  | Option.none =>
    match tryDigitsBoundary 3 s with
    | Option.some ds => Option.some ds
    | Option.none => tryDigitsBoundary 2 s

def matchSep (s : List Char) : Option (Char × List Char) :=
  match s with
  | c :: rest => if isSepCls c then Option.some (c, rest) else Option.none
  | [] => Option.none

/-- Pattern `\d{n}[\/\-\s]\d{2,4}\b` (the tail after the first separator). -/
def d2branch (n : Nat) (s : List Char) : Option (List Char) :=
  match takeDigits n s with
  | Option.some (ds, r) =>
    match matchSep r with
    | Option.some (sp, r2) => (matchD3 r2).map (fun t => ds ++ sp :: t)
    | Option.none => Option.none
  | Option.none => Option.none

/-- Pattern `\d{n}[\/\-\s]\d{1,2}[\/\-\s]\d{2,4}\b` with greedy backtracking on
the middle digit group. -/
def d1branch (n : Nat) (s : List Char) : Option (List Char) :=
  match takeDigits n s with
  | Option.some (ds, r) =>
    match matchSep r with
    | Option.some (sp, r2) =>
      (match d2branch 2 r2 with
       | Option.some m => Option.some m
       | Option.none => d2branch 1 r2).map (fun t => ds ++ sp :: t)
    | Option.none => Option.none
  | Option.none => Option.none

/-- One attempt of the date pattern at the current position (the leading
word boundary is checked by the caller). -/
def matchDateAt (s : List Char) : Option (List Char) :=
  match d1branch 2 s with
  | Option.some m => Option.some m
  | Option.none => d1branch 1 s

/-- Model of `re.search` of the date pattern: leftmost position with a word
boundary before it (the pattern starts with a digit, so the boundary
holds exactly when the previous character is not a word character). -/
def firstDateAux : Option Char → List Char → Option (List Char)
  | _, [] => Option.none
  | prev, c :: rest =>
    let boundaryOk : Bool :=
      match prev with
      | Option.none => true
      | Option.some p => ¬ isWordChar p
    match (if boundaryOk then matchDateAt (c :: rest) else Option.none) with
    | Option.some m => Option.some m
    | Option.none => firstDateAux (Option.some c) rest

def firstDateMatch (s : List Char) : Option (List Char) :=
  firstDateAux Option.none s

/-! ### `parse_textract_expense` (receipt_textract_processor.py lines 15-57) -/
/-- The summary under construction: `{"Vendor": None, "Total": None,
"Date": None, "Items": []}` and its later states. -/
structure TSummary where
  vendor : Option (List Char)
  total : Option (List Char)
  date : Option (List Char)
  items : List (List Char)

def initSummary : TSummary := ⟨Option.none, Option.none, Option.none, []⟩

/-- The expression `(d.get(key, ...).get("Text") or ...).strip()`: a falsy text gives the
empty string, a truthy string is stripped, and a truthy non-string
raises (`.strip` on it). -/
def getTextStripped (d : PyVal) (key : List Char) : Except Unit (List Char) :=
  (pyGetE d key (PyVal.dict [])).bind fun inner =>
  (pyGetE inner "Text".data PyVal.none).bind fun tv =>
  if tv.truthy then
    (match tv with
     | .str s => Except.ok (pyStrip s)
     | _ => Except.error ())
  else Except.ok []

/-- The elif classification chain of lines 26-31 applied to the
lower-cased type text `t` and the chosen value `v`. -/
def classifyAndSet (acc : TSummary) (t v : List Char) : TSummary :=
  if strContains t "vendor".data ∨ strContains t "merchant".data
      ∨ strContains t "merchant_name".data then
    { acc with vendor := Option.some v }
  else if strContains t "total".data ∨ t = "amount".data then
    { acc with total := Option.some v }
  else if strContains t "date".data then
    { acc with date := Option.some v }
  else acc

/-- One summary field (lines 22-31): type text stripped and lower-cased,
value text preferred, label text when the value is empty, then the
classification chain. -/
def processField (acc : TSummary) (field : PyVal) : Except Unit TSummary :=
  (getTextStripped field "Type".data).bind fun t0 =>
  (getTextStripped field "ValueDetection".data).bind fun v0 =>
  ((if v0.isEmpty then getTextStripped field "LabelDetection".data
    else Except.ok v0)).bind fun v =>
  Except.ok (classifyAndSet acc (pyLower t0) v)

def processFields : TSummary → List PyVal → Except Unit TSummary
  | acc, [] => Except.ok acc
  | acc, f :: rest => (processField acc f).bind fun acc2 => processFields acc2 rest

/-- One line-item key/value pair (lines 37-43): `"name: value"` when
both are non-empty, the bare value when only it is, nothing otherwise. -/
def processKV (kv : PyVal) : Except Unit (Option (List Char)) :=
  (getTextStripped kv "Type".data).bind fun nm =>
  (getTextStripped kv "ValueDetection".data).bind fun vl =>
  Except.ok (if ¬ nm.isEmpty ∧ ¬ vl.isEmpty then
      Option.some (nm ++ ':' :: ' ' :: vl)
    else if ¬ vl.isEmpty then Option.some vl
    else Option.none)

def collectParts : List PyVal → Except Unit (List (List Char))
  | [] => Except.ok []
  | kv :: rest =>
    (processKV kv).bind fun p =>
    (collectParts rest).bind fun ps =>
    Except.ok (match p with | Option.some x => x :: ps | Option.none => ps)

def joinSep (sep : List Char) : List (List Char) → List Char
  | [] => []
  | [x] => x
  | x :: xs => x ++ sep ++ joinSep sep xs

/-- One line item (lines 36-45): its pair-strings joined with `" | "`,
skipped entirely when no pair yields a part. -/
def processLine (line : PyVal) : Except Unit (Option (List Char)) :=
  (pyGetE line "LineItemExpenseFields".data (PyVal.list [])).bind fun kvsv =>
  (pyIterE kvsv).bind fun kvs =>
  (collectParts kvs).bind fun parts =>
  Except.ok (if parts.isEmpty then Option.none
    else Option.some (joinSep [' ', '|', ' '] parts))

def processLines : List PyVal → Except Unit (List (List Char))
  | [] => Except.ok []
  | line :: rest =>
    (processLine line).bind fun it =>
    (processLines rest).bind fun its =>
    Except.ok (match it with | Option.some x => x :: its | Option.none => its)

def processGroups : List PyVal → Except Unit (List (List Char))
  | [] => Except.ok []
  | grp :: rest =>
    (pyGetE grp "LineItems".data (PyVal.list [])).bind fun lsv =>
    (pyIterE lsv).bind fun lines =>
    (processLines lines).bind fun its1 =>
    (processGroups rest).bind fun its2 =>
    Except.ok (its1 ++ its2)

/-- Python `docs[0]`: indexing by 0 (a list yields its head, a string
its first character; anything else raises, as does an exhausted list). -/
def pyIndex0 : PyVal → Except Unit PyVal
  | .list (x :: _) => Except.ok x
  | .str (c :: _) => Except.ok (PyVal.str [c])
  | _ => Except.error ()

/-- Python `not out["Total"]`: unset (None) or empty. -/
def falsyOpt : Option (List Char) → Bool
  | Option.none => true
  | Option.some s => s.isEmpty

/-- The fallback block (lines 47-56), sequential like the source: when
`Total` is falsy, the first total-pattern match of the blob (if any)
replaces it; then the same for `Date` with the date pattern. -/
def seqFallback (txt : List Char) (p : TSummary) : TSummary :=
  let out1 := if falsyOpt p.total then
      (match firstTotalMatch txt with
       | Option.some m => { p with total := Option.some m }
       | Option.none => p)
    else p
  let out2 := if falsyOpt out1.date then
      (match firstDateMatch txt with
       | Option.some m => { out1 with date := Option.some m }
       | Option.none => out1)
    else out1
  out2

/-- The function `parse_textract_expense` in full (lines 15-57), sequential like the
source: primary extraction from the first document's summary fields and
line items, then the two regex fallbacks over the serialized response
for each field still falsy. -/
def parse_textract_expense (response : PyVal) : Except Unit TSummary :=
  ((pyGetE response "ExpenseDocuments".data (PyVal.list [])).bind fun docs =>
   if docs.truthy then
     (pyIndex0 docs).bind fun doc =>
     (pyGetE doc "SummaryFields".data (PyVal.list [])).bind fun sfv =>
     (pyIterE sfv).bind fun fields =>
     (processFields initSummary fields).bind fun acc1 =>
     (pyGetE doc "LineItemGroups".data (PyVal.list [])).bind fun gv =>
     (pyIterE gv).bind fun grps =>
     (processGroups grps).bind fun its =>
     Except.ok { acc1 with items := its }
   else Except.ok initSummary).bind fun out =>
  Except.ok (seqFallback (pyDumps response) out)

/-- The primary path in isolation, for the claims: everything before the
serialization fallback. -/
def docPhase (doc : PyVal) : Except Unit TSummary :=
  (pyGetE doc "SummaryFields".data (PyVal.list [])).bind fun sfv =>
  (pyIterE sfv).bind fun fields =>
  (processFields initSummary fields).bind fun acc1 =>
  (pyGetE doc "LineItemGroups".data (PyVal.list [])).bind fun gv =>
  (pyIterE gv).bind fun grps =>
  (processGroups grps).bind fun its =>
  Except.ok { acc1 with items := its }

def docsPhase (docs : PyVal) : Except Unit TSummary :=
  if docs.truthy then (pyIndex0 docs).bind docPhase
  else Except.ok initSummary

def primaryPhase (response : PyVal) : Except Unit TSummary :=
  (pyGetE response "ExpenseDocuments".data (PyVal.list [])).bind docsPhase

/-- The field categories of the classification chain. -/
inductive Cat where
  | vendor : Cat
  | total : Cat
  | date : Cat
  deriving DecidableEq

/-- The classification of claim C7: lower-cased type text containing
"vendor"/"merchant"/"merchant_name" is a vendor field, else containing
"total" or exactly "amount" a total field, else containing "date" a date
field. -/
def classify (t : List Char) : Option Cat :=
  if strContains t "vendor".data ∨ strContains t "merchant".data
      ∨ strContains t "merchant_name".data then Option.some Cat.vendor
  else if strContains t "total".data ∨ t = "amount".data then Option.some Cat.total
  else if strContains t "date".data then Option.some Cat.date
  else Option.none

/-- The (type text, value) view of one summary field: type stripped and
lower-cased; detected value preferred, label text when it is empty. -/
def fieldTV (field : PyVal) : Except Unit (List Char × List Char) :=
  (getTextStripped field "Type".data).bind fun t0 =>
  (getTextStripped field "ValueDetection".data).bind fun v0 =>
  ((if v0.isEmpty then getTextStripped field "LabelDetection".data
    else Except.ok v0)).bind fun v =>
  Except.ok (pyLower t0, v)

def tvsOf : List PyVal → Except Unit (List (List Char × List Char))
  | [] => Except.ok []
  | f :: rest =>
    (fieldTV f).bind fun tv =>
    (tvsOf rest).bind fun tvs =>
    Except.ok (tv :: tvs)

/-- The value of a category after a field list: the value of the last
field classified into that category, the initial value when none is. -/
def lastSet (tvs : List (List Char × List Char)) (c : Cat)
    (init : Option (List Char)) : Option (List Char) :=
  tvs.foldl (fun cur tv =>
    if classify tv.1 = Option.some c then Option.some tv.2 else cur) init

/-! ### The model-stage handler (`lambda_handler`,
receipt_bedrock_processor.py lines 203-268)

The handler is modelled with its external effects as oracles: the
outcome of loading+decoding the summary object, the outcome of the
Bedrock call, and a per-key outcome for `s3.put_object`.  The returned
trace lists the put attempts in order as (key, succeeded). -/
/-- Python errors relevant to the handler: an oracle-reported failure
(S3, JSON decode, Bedrock) carrying an identity, or a TypeError-style
failure from applying dict operations to a non-dict. -/
inductive PyErr where
  | oracle : Nat → PyErr
  | typeError : PyErr
  deriving DecidableEq

def TEXTRACT_PREFIX : List Char := "textract-output/".data

def BEDROCK_PREFIX : List Char := "bedrock-output/".data

def strEndsWith (s suffix : List Char) : Bool :=
  suffix.reverse.isPrefixOf s.reverse

/-- Python `os.path.basename`. -/
def basename (key : List Char) : List Char :=
  (key.reverse.takeWhile (fun c => c ≠ '/')).reverse

/-- The base name `os.path.basename(key).replace(".summary.json", ...)`. -/
def baseOf (key : List Char) : List Char :=
  strRemove ".summary.json".data (basename key)

def errKeyOf (key : List Char) : List Char :=
  BEDROCK_PREFIX ++ baseOf key ++ ".error.txt".data

def sumKeyOf (key : List Char) : List Char :=
  BEDROCK_PREFIX ++ baseOf key ++ ".summary.txt".data

def bedKeyOf (key : List Char) : List Char :=
  BEDROCK_PREFIX ++ baseOf key ++ ".bedrock.json".data

/-- Whether `make_prompt(summary_data)` runs without raising: it needs a
dict, and an `Items` value that is iterable or falsy (a truthy number or
boolean fails the generator join). -/
def promptable : PyVal → Bool
  | .dict sd =>
    (match PyVal.dictGet sd "Items".data with
     | .int n => n = 0
     | .float q => q = 0
     | .bool b => ¬ b
     | _ => true)
  | _ => false

/-- Whether `'₹' in x` raises a TypeError: truthy numbers and `True`
are not iterable.  Truthy strings, lists and dicts all support the `in`
membership test and do not raise. -/
def nonIterable : PyVal → Bool
  | .int n => n ≠ 0
  | .float q => q ≠ 0
  | .bool b => b
  | _ => false

/-- The normalization assignments (lines 251-252) with their one raise
point: line 251 never raises (`parse_amount` coerces with `str()`), but
line 252 evaluates `extract_currency(summary_data.get("Total", ""))`
only when the model currency (looked up after the amount assignment) is
falsy, and the `'₹' in s` test inside raises a TypeError when that raw
total is a truthy non-iterable (a number or `True`). -/
def normalize_fields_checked (fs sd : List (List Char × PyVal)) :
    Except PyErr (List (List Char × PyVal)) :=
  let f1 := PyVal.dictSet fs "amount".data
    (pyOfOptFloat (parse_amount
      (pyOr (PyVal.dictGet fs "amount".data) (PyVal.dictGet sd "Total".data))))
  if ¬ (PyVal.dictGet f1 "currency".data).truthy
      ∧ nonIterable (PyVal.dictGetD sd "Total".data (PyVal.str [])) then
    Except.error PyErr.typeError
  else Except.ok (normalize_fields fs sd)

/-- The model-stage `lambda_handler` (lines 203-268): prefix/suffix
guard, summary load, prompt build, the guarded Bedrock-call/parse span
(error marker then re-raise on failure, the marker itself best-effort),
the unguarded normalization (whose line-252 TypeError propagates with no
marker and no writes), and the guarded artifact-write span (same marker
behaviour as the first span).  Returns the handler outcome and the
ordered trace of put attempts. -/
def lambda_handler_model (key : List Char) (getSummary : Except PyErr PyVal)
    (bedrockResult : Except PyErr (List Char))
    (putOutcome : List Char → Option PyErr) :
    Except PyErr (List Char) × List (List Char × Bool) :=
  if ¬ (TEXTRACT_PREFIX.isPrefixOf key ∧ strEndsWith key ".summary.json".data) then
    (Except.ok "skipped".data, [])
  else
    match getSummary with
    | Except.error e => (Except.error e, [])
    | Except.ok summary_data =>
      if ¬ promptable summary_data then (Except.error PyErr.typeError, [])
      else
        match bedrockResult with
        | Except.error e =>
          (Except.error e, [(errKeyOf key, (putOutcome (errKeyOf key)).isNone)])
        | Except.ok raw =>
          match (parse_bedrock_output raw).2, summary_data with
          | PyVal.dict fs, PyVal.dict sd =>
            (match normalize_fields_checked fs sd with
             | Except.error e => (Except.error e, [])
             | Except.ok _normalized =>
               match putOutcome (sumKeyOf key) with
               | Option.some e =>
                 (Except.error e,
                  [(sumKeyOf key, false), (errKeyOf key, (putOutcome (errKeyOf key)).isNone)])
               | Option.none =>
                 match putOutcome (bedKeyOf key) with
                 | Option.some e =>
                   (Except.error e,
                    [(sumKeyOf key, true), (bedKeyOf key, false),
                     (errKeyOf key, (putOutcome (errKeyOf key)).isNone)])
                 | Option.none =>
                   (Except.ok "Success".data, [(sumKeyOf key, true), (bedKeyOf key, true)]))
          | _, _ => (Except.error PyErr.typeError, [])

lemma isSpace_props {c : Char} (h : isSpace c = true) :
    c.isDigit = false ∧ c ≠ '.' := by
  simp only [isSpace, decide_eq_true_eq] at h
  rcases h with rfl | rfl | rfl | rfl | rfl | rfl <;> exact ⟨by decide, by decide⟩

lemma firstNumRun_cons_nondigit {c : Char} {xs : List Char} (h : c.isDigit = false) :
    firstNumRun (c :: xs) = firstNumRun xs := by
  simp [firstNumRun, h]

lemma firstNumRun_append_nondigit_left {pre xs : List Char}
    (h : ∀ c ∈ pre, c.isDigit = false) :
    firstNumRun (pre ++ xs) = firstNumRun xs := by
  induction pre with
  | nil => rfl
  | cons c pre ih =>
    rw [List.cons_append, firstNumRun_cons_nondigit (h c (by simp))]
    exact ih (fun c hc => h c (by simp [hc]))

lemma firstNumRun_eq_none {ws : List Char} (h : ∀ c ∈ ws, c.isDigit = false) :
    firstNumRun ws = Option.none := by
  have h2 := @firstNumRun_append_nondigit_left ws [] h
  simpa using h2

lemma takeWhile_eq_nil_of_false {p : Char → Bool} {ws : List Char}
    (h : ∀ c ∈ ws, p c = false) : List.takeWhile p ws = [] := by
  cases ws with
  | nil => rfl
  | cons w ws' => rw [List.takeWhile_cons]; simp [h w (by simp)]

lemma dropWhile_eq_self_of_false {p : Char → Bool} {ws : List Char}
    (h : ∀ c ∈ ws, p c = false) : List.dropWhile p ws = ws := by
  cases ws with
  | nil => rfl
  | cons w ws' => rw [List.dropWhile_cons]; simp [h w (by simp)]

lemma takeWhile_append_eq {p : Char → Bool} {A ws : List Char}
    (h : List.takeWhile p ws = []) :
    List.takeWhile p (A ++ ws) = List.takeWhile p A := by
  rw [List.takeWhile_append]
  split
  · next hl =>
    have hpre : List.takeWhile p A <+: A := List.takeWhile_prefix p
    have : List.takeWhile p A = A := List.IsPrefix.eq_of_length hpre hl
    rw [h, List.append_nil, this]
  · rfl

lemma fracExt_append {x ws : List Char}
    (hws : ∀ c ∈ ws, c.isDigit = false ∧ c ≠ '.') :
    fracExt (x ++ ws) = fracExt x := by
  match x with
  | [] =>
    cases ws with
    | nil => rfl
    | cons w ws' =>
      cases ws' with
      | nil => rfl
      | cons d r =>
        simp only [List.nil_append, fracExt]
        rw [if_neg]
        rintro ⟨hw, -⟩
        exact (hws w (by simp)).2 hw
  | [a] =>
    cases ws with
    | nil => rfl
    | cons d r =>
      simp only [List.cons_append, List.nil_append, fracExt]
      rw [if_neg]
      rintro ⟨-, hd⟩
      rw [(hws d (by simp)).1] at hd
      exact Bool.false_ne_true hd
  | a :: d :: rest =>
    simp only [List.cons_append, fracExt]
    by_cases ha : a = '.' ∧ d.isDigit = true
    · rw [if_pos ha, if_pos ha]
      have htw : List.takeWhile Char.isDigit ws = [] :=
        takeWhile_eq_nil_of_false (fun c hc => (hws c hc).1)
      rw [show d :: (rest ++ ws) = (d :: rest) ++ ws from rfl,
        takeWhile_append_eq htw]
    · rw [if_neg ha, if_neg ha]

lemma dropWhile_head_false {p : Char → Bool} {l : List Char} {a : Char} {rest : List Char}
    (h : List.dropWhile p l = a :: rest) : p a = false := by
  induction l with
  | nil => simp at h
  | cons c l ih =>
    rw [List.dropWhile_cons] at h
    split at h
    · exact ih h
    · next hc =>
      cases h
      simpa using hc

lemma firstNumRun_append_right {xs ws : List Char}
    (hws : ∀ c ∈ ws, c.isDigit = false ∧ c ≠ '.') :
    firstNumRun (xs ++ ws) = firstNumRun xs := by
  induction xs with
  | nil => simpa using firstNumRun_eq_none (fun c hc => (hws c hc).1)
  | cons c xs ih =>
    by_cases hc : c.isDigit = true
    · rw [List.cons_append]
      simp only [firstNumRun, hc, if_true]
      have hsplit : c :: (xs ++ ws) = (c :: xs) ++ ws := rfl
      rw [hsplit,
        takeWhile_append_eq (takeWhile_eq_nil_of_false (fun c hc => (hws c hc).1))]
      rw [List.dropWhile_append]
      split
      · next hnil =>
        rw [dropWhile_eq_self_of_false (fun c hc => (hws c hc).1)]
        have h0 : List.dropWhile Char.isDigit (c :: xs) = [] := by
          rw [List.dropWhile_eq_nil_iff]
          simpa using hnil
        rw [h0]
        have h1 : fracExt ws = fracExt ([] ++ ws) := by rw [List.nil_append]
        rw [h1, fracExt_append hws]
      · rw [fracExt_append hws]
    · have hc' : c.isDigit = false := by simpa using hc
      rw [List.cons_append, firstNumRun_cons_nondigit hc', firstNumRun_cons_nondigit hc']
      exact ih

lemma mem_of_mem_strRemoveChar {c x : Char} {l : List Char}
    (h : x ∈ strRemoveChar c l) : x ∈ l := by
  simp only [strRemoveChar, List.mem_filter] at h
  exact h.1

/-- Deleting the currency symbols commutes with the whitespace strip as
far as the first numeric run is concerned: the strip only removes
whitespace at the two ends, which can neither start nor extend a run. -/
lemma firstNumRun_strip (u : List Char) :
    firstNumRun (strRemoveChar '€' (strRemoveChar '$' (strRemoveChar '₹' (pyStrip u))))
      = firstNumRun (strRemoveChar '€' (strRemoveChar '$' (strRemoveChar '₹' u))) := by
  have hu : List.takeWhile isSpace u ++ List.dropWhile isSpace u = u :=
    List.takeWhile_append_dropWhile isSpace u
  have hvsplit : List.dropWhile isSpace u
      = pyStrip u
        ++ (List.takeWhile isSpace (List.dropWhile isSpace u).reverse).reverse := by
    have h1 := List.takeWhile_append_dropWhile isSpace (List.dropWhile isSpace u).reverse
    have h2 := congrArg List.reverse h1
    simp only [List.reverse_append, List.reverse_reverse] at h2
    simp only [pyStrip]
    exact h2.symm
  have hF : ∀ l₁ l₂ : List Char,
      strRemoveChar '€' (strRemoveChar '$' (strRemoveChar '₹' (l₁ ++ l₂)))
        = strRemoveChar '€' (strRemoveChar '$' (strRemoveChar '₹' l₁))
          ++ strRemoveChar '€' (strRemoveChar '$' (strRemoveChar '₹' l₂)) := by
    intro l₁ l₂
    simp [strRemoveChar, List.filter_append]
  have key : strRemoveChar '€' (strRemoveChar '$' (strRemoveChar '₹' u))
      = strRemoveChar '€' (strRemoveChar '$' (strRemoveChar '₹' (List.takeWhile isSpace u)))
        ++ (strRemoveChar '€' (strRemoveChar '$' (strRemoveChar '₹' (pyStrip u)))
          ++ strRemoveChar '€' (strRemoveChar '$' (strRemoveChar '₹'
              (List.takeWhile isSpace (List.dropWhile isSpace u).reverse).reverse))) := by
    conv_lhs => rw [← hu]
    conv_lhs => rw [hF]
    conv_lhs => rw [hvsplit]
    conv_lhs => rw [hF]
  rw [key]
  rw [firstNumRun_append_nondigit_left (fun c hc => by
    have hc1 := mem_of_mem_strRemoveChar (mem_of_mem_strRemoveChar
      (mem_of_mem_strRemoveChar hc))
    exact (isSpace_props (List.mem_takeWhile_imp hc1)).1)]
  rw [firstNumRun_append_right (fun c hc => by
    have hc1 := mem_of_mem_strRemoveChar (mem_of_mem_strRemoveChar
      (mem_of_mem_strRemoveChar hc))
    rw [List.mem_reverse] at hc1
    exact isSpace_props (List.mem_takeWhile_imp hc1))]

lemma natDigitsAux_ne_nil :
    ∀ (fuel n : Nat) (acc : List Char), acc ≠ [] → natDigitsAux fuel n acc ≠ [] := by
  intro fuel
  induction fuel with
  | zero => intro n acc h; exact h
  | succ fuel ih =>
    intro n acc h
    simp only [natDigitsAux]
    split
    · exact List.cons_ne_nil _ _
    · exact ih _ _ (List.cons_ne_nil _ _)

lemma natDigits_ne_nil (n : Nat) : natDigits n ≠ [] := by
  simp only [natDigits, natDigitsAux]
  split
  · exact List.cons_ne_nil _ _
  · exact natDigitsAux_ne_nil _ _ _ (List.cons_ne_nil _ _)

lemma intStr_ne_nil (n : Int) : intStr n ≠ [] := by
  simp only [intStr]
  split
  · exact List.cons_ne_nil _ _
  · exact natDigits_ne_nil _

lemma pyStr_ne_nil {v : PyVal} (h : v.truthy = true) : pyStr v ≠ [] := by
  cases v with
  | none => simp [PyVal.truthy] at h
  | bool b => cases b <;> simp [pyStr]
  | int n => exact intStr_ne_nil n
  | float q =>
    simp only [pyStr]
    split
    · simp
    · simp
  | str s =>
    simp only [PyVal.truthy] at h
    simpa [pyStr] using h
  | list xs => simp [pyStr]
  | dict fs => simp [pyStr]

/-- For every claim-shaped input (an optional string), `parse_amount`
computes exactly what claim C5 states: no-value on absent input,
otherwise delete commas and the three currency symbols and take the
first `digits(.digits)?` run as the value (the code's extra whitespace
strip between the comma and symbol removals cannot change the first
run); together with the claim's three concrete examples. -/
theorem parse_amount_follows_claim :
    (∀ s : Option (List Char), parse_amount (pyOfOptStr s) = parse_amount_claim s)
    ∧ parse_amount (pyOfOptStr (Option.some "₹1,234.50".data)) = Option.some (2469/2 : ℚ)
    ∧ parse_amount (pyOfOptStr Option.none) = Option.none
    ∧ parse_amount (pyOfOptStr (Option.some "garbage".data)) = Option.none := by
  refine ⟨?_, ?_, rfl, rfl⟩
  · intro s
    cases s with
    | none => rfl
    | some t =>
      cases t with
      | nil => rfl
      | cons c rest =>
        show parse_amount (.str (c :: rest)) = _
        simp only [parse_amount, parse_amount_claim, pyStr, PyVal.truthy,
          List.isEmpty_cons, Bool.not_false, Bool.not_true, if_false]
        rw [firstNumRun_strip (strRemoveChar ',' (c :: rest))]
        cases firstNumRun (strRemoveChar '€' (strRemoveChar '$' (strRemoveChar '₹'
            (strRemoveChar ',' (c :: rest))))) <;> rfl
  · have h : parse_amount (pyOfOptStr (Option.some "₹1,234.50".data))
        = Option.some (((1234 : ℕ) : ℚ) + ((50 : ℕ) : ℚ) / ((10 : ℚ) ^ (2 : ℕ))) := rfl
    rw [h]; norm_num

/-- For every input string, `extract_currency` resolves by the fixed
priority order of claim C6: a rupee / "INR" / "Rs" marker gives INR,
else a dollar sign gives USD, else a euro sign gives EUR, else the empty
string; absent input gives the empty string, and a string with both a
rupee marker and a dollar sign resolves to INR. -/
theorem extract_currency_priority :
    (∀ t : List Char,
      ((strContains t ['₹'] = true ∨ strContains t "INR".data = true
          ∨ strContains t "Rs".data = true) →
        extract_currency (Option.some t) = "INR".data)
      ∧ (strContains t ['₹'] = false → strContains t "INR".data = false →
          strContains t "Rs".data = false → strContains t ['$'] = true →
        extract_currency (Option.some t) = "USD".data)
      ∧ (strContains t ['₹'] = false → strContains t "INR".data = false →
          strContains t "Rs".data = false → strContains t ['$'] = false →
          strContains t ['€'] = true →
        extract_currency (Option.some t) = "EUR".data)
      ∧ (strContains t ['₹'] = false → strContains t "INR".data = false →
          strContains t "Rs".data = false → strContains t ['$'] = false →
          strContains t ['€'] = false →
        extract_currency (Option.some t) = []))
    ∧ extract_currency Option.none = []
    ∧ extract_currency (Option.some []) = []
    ∧ extract_currency (Option.some "Rs 500".data) = "INR".data
    ∧ extract_currency (Option.some "$20".data) = "USD".data
    ∧ extract_currency (Option.some "₹1 and $2".data) = "INR".data := by
  refine ⟨?_, rfl, rfl, by decide, by decide, by decide⟩
  intro t
  have hempty : ∀ needle : List Char, needle ≠ [] → strContains [] needle = false := by
    intro needle hne
    cases needle with
    | nil => exact absurd rfl hne
    | cons a r => rfl
  refine ⟨?_, ?_, ?_, ?_⟩
  · intro h
    have hne : t ≠ [] := by
      rintro rfl
      rcases h with h | h | h <;> rw [hempty _ (by simp)] at h <;> exact Bool.false_ne_true h
    simp only [extract_currency]
    rw [if_neg (by simpa using hne), if_pos h]
  · intro h1 h2 h3 h4
    have hne : t ≠ [] := by
      rintro rfl
      rw [hempty _ (by simp)] at h4
      exact Bool.false_ne_true h4
    simp only [extract_currency]
    rw [if_neg (by simpa using hne), if_neg (by simp [h1, h2, h3]), if_pos h4]
  · intro h1 h2 h3 h4 h5
    have hne : t ≠ [] := by
      rintro rfl
      rw [hempty _ (by simp)] at h5
      exact Bool.false_ne_true h5
    simp only [extract_currency]
    rw [if_neg (by simpa using hne), if_neg (by simp [h1, h2, h3]), if_neg (by simp [h4]),
      if_pos h5]
  · intro h1 h2 h3 h4 h5
    cases ht : t with
    | nil => rfl
    | cons c r =>
      rw [← ht]
      simp only [extract_currency]
      rw [if_neg (by simp [ht]), if_neg (by simp [h1, h2, h3]), if_neg (by simp [h4]),
        if_neg (by simp [h5])]

/-- Witness for C6: the priority order fires on a concrete input. -/
theorem extract_currency_priority_witness :
    extract_currency (Option.some "Rs 500".data) = "INR".data :=
  (extract_currency_priority.1 "Rs 500".data).1 (Or.inr (Or.inr (by decide)))

/-- Claim C10: every falsy input (`None`, the empty string, the number
0) gives no value, so a zero amount is indistinguishable from an absent
one; and a truthy non-string input is first coerced with `str()`, so the
integer 5 parses as 5.0. -/
theorem parse_amount_falsy_and_coercion :
    parse_amount .none = Option.none
    ∧ parse_amount (.str []) = Option.none
    ∧ parse_amount (.int 0) = Option.none
    ∧ (∀ v : PyVal, v.truthy = true → parse_amount v = parse_amount (.str (pyStr v)))
    ∧ parse_amount (.int 5) = Option.some (5 : ℚ) := by
  refine ⟨rfl, rfl, rfl, ?_, ?_⟩
  · intro v hv
    have hne := pyStr_ne_nil hv
    simp only [parse_amount]
    rw [if_neg (by simp [hv]), if_neg (by simp [PyVal.truthy, hne])]
    rfl
  · have h : parse_amount (.int 5)
        = Option.some (((5 : ℕ) : ℚ) + ((0 : ℕ) : ℚ) / ((10 : ℚ) ^ (0 : ℕ))) := rfl
    rw [h]; norm_num

/-- Witness for C10: the coercion clause applied at the truthy integer 5. -/
theorem parse_amount_falsy_and_coercion_witness :
    parse_amount (.int 5) = parse_amount (.str (pyStr (.int 5))) :=
  parse_amount_falsy_and_coercion.2.2.2.1 (.int 5) (by decide)

/-- Counterexample to claim C1 as stated: on
`'{"a":1}===JSON==='` (one separator occurrence followed by nothing) the
code leaves fields empty because the piece after the separator is empty,
whereas the claim's unconditional strict-parse-then-scan recovers the
object from the raw text. -/
theorem parse_bedrock_output_claimC1_cex :
    parse_bedrock_output "\x7b\"a\":1\x7d===JSON===".data
      ≠ parse_bedrock_output_claimC1 "\x7b\"a\":1\x7d===JSON===".data := by
  have h1 : parse_bedrock_output "\x7b\"a\":1\x7d===JSON===".data
      = ("\x7b\"a\":1\x7d".data, PyVal.dict []) := rfl
  have h2 : parse_bedrock_output_claimC1 "\x7b\"a\":1\x7d===JSON===".data
      = ("\x7b\"a\":1\x7d".data, PyVal.dict [("a".data, PyVal.int 1)]) := rfl
  rw [h1, h2]
  intro h
  have h3 := congrArg Prod.snd h
  simp only [Prod.snd] at h3
  cases h3

/-- Claim C1 as amended holds of the code: the parser equals the
amended split contract on every input. -/
theorem parse_bedrock_output_split_contract :
    ∀ raw : List Char, parse_bedrock_output raw = parse_bedrock_output_amendedC1 raw := by
  intro raw
  cases raw with
  | nil => rfl
  | cons c rest =>
    simp only [parse_bedrock_output, List.isEmpty_cons, if_false,
      parse_bedrock_output_amendedC1, summaryOf, jsonPartOf, fieldsOf]
    rcases hp : pySplit (c :: rest) sepToken with _ | ⟨a, _ | ⟨b, t⟩⟩ <;>
      simp only [hp] <;> rfl

/-- Counterexample to claim C4 as stated: on a bare-null JSON payload
the fields component is None, not a mapping of any kind. -/
theorem parse_bedrock_output_fields_null_cex :
    (parse_bedrock_output "S===JSON===null".data).2 = PyVal.none
    ∧ ((parse_bedrock_output "S===JSON===null".data).2).isDict = false :=
  ⟨rfl, rfl⟩

lemma fieldsOf_shape (raw jp : List Char) :
    fieldsOf raw jp = PyVal.dict []
      ∨ ∃ s : List Char, json_loads s = Option.some (fieldsOf raw jp) := by
  unfold fieldsOf
  split
  · left; rfl
  · rcases hjl : json_loads jp with _ | v
    · simp only [hjl]
      rcases hbs : braceSpan raw with _ | m
      · simp only [hbs]; left; trivial
      · simp only [hbs]
        rcases hm : json_loads m with _ | w
        · simp only [hm]; left; trivial
        · simp only [hm]; right; exact ⟨m, hm⟩
    · simp only [hjl]; right; exact ⟨jp, hjl⟩

/-- Claim C4 as amended: the fields component never raises (the function
is total) and is always either the empty mapping or the value of a
successful strict JSON parse — so it is a mapping whenever the parsed
payload denotes an object, but a bare non-object payload (null, number,
list, …) passes through as that value. -/
theorem parse_bedrock_output_fields_total_shape :
    ∀ raw : List Char, (parse_bedrock_output raw).2 = PyVal.dict []
      ∨ ∃ s : List Char, json_loads s = Option.some (parse_bedrock_output raw).2 := by
  intro raw
  cases raw with
  | nil => left; rfl
  | cons c rest =>
    have h : (parse_bedrock_output (c :: rest)).2
        = fieldsOf (c :: rest) (jsonPartOf (c :: rest)) := by
      simp [parse_bedrock_output]
    rw [h]
    exact fieldsOf_shape _ _

lemma dictGet_dictSet_self (fs : List (List Char × PyVal)) (k : List Char) (v : PyVal) :
    PyVal.dictGet (PyVal.dictSet fs k v) k = v := by
  induction fs with
  | nil => simp [PyVal.dictSet, PyVal.dictGet, List.find?]
  | cons p fs ih =>
    by_cases hp : p.1 = k
    · simp [PyVal.dictSet, hp, PyVal.dictGet, List.find?]
    · simp only [PyVal.dictSet, if_neg hp]
      simp only [PyVal.dictGet, List.find?]
      rw [show (decide (p.1 = k)) = false from by simp [hp]]
      exact ih

lemma dictGet_dictSet_ne (fs : List (List Char × PyVal)) (k k' : List Char) (v : PyVal)
    (h : k ≠ k') :
    PyVal.dictGet (PyVal.dictSet fs k v) k' = PyVal.dictGet fs k' := by
  induction fs with
  | nil => simp [PyVal.dictSet, PyVal.dictGet, List.find?, h]
  | cons p fs ih =>
    by_cases hp : p.1 = k
    · simp only [PyVal.dictSet, if_pos hp]
      simp only [PyVal.dictGet, List.find?]
      rw [show (decide (k = k')) = false from by simp [h],
        show (decide (p.1 = k')) = false from by simp [hp, h]]
    · simp only [PyVal.dictSet, if_neg hp]
      by_cases hk : p.1 = k'
      · simp [PyVal.dictGet, List.find?, hk]
      · simp only [PyVal.dictGet, List.find?]
        rw [show (decide (p.1 = k')) = false from by simp [hk]]
        exact ih

/-- Claim C2: for fields mappings and summaries whose raw `Total` is a
string or None, normalization takes the model-asserted amount when
present and truthy and otherwise falls back to parsing the raw total;
likewise for the currency; and an explicit JSON null amount triggers the
raw-text fallback. -/
theorem normalization_precedence (fields summary_data : List (List Char × PyVal))
    (_hT : strOrNone (PyVal.dictGetD summary_data "Total".data (PyVal.str [])) = true) :
    (PyVal.dictGet (normalize_fields fields summary_data) "amount".data
      = pyOfOptFloat (parse_amount
          (if (PyVal.dictGet fields "amount".data).truthy
           then PyVal.dictGet fields "amount".data
           else PyVal.dictGet summary_data "Total".data)))
    ∧ (PyVal.dictGet (normalize_fields fields summary_data) "currency".data
      = (if (PyVal.dictGet fields "currency".data).truthy
         then PyVal.dictGet fields "currency".data
         else PyVal.str (extract_currency (asOptStr
           (PyVal.dictGetD summary_data "Total".data (PyVal.str []))))))
    ∧ (PyVal.dictGet fields "amount".data = PyVal.none →
        PyVal.dictGet (normalize_fields fields summary_data) "amount".data
          = pyOfOptFloat (parse_amount (PyVal.dictGet summary_data "Total".data))) := by
  have hne : "amount".data ≠ "currency".data := by decide
  have hcurr : PyVal.dictGet
      (PyVal.dictSet fields "amount".data
        (pyOfOptFloat (parse_amount
          (pyOr (PyVal.dictGet fields "amount".data)
                (PyVal.dictGet summary_data "Total".data))))) "currency".data
      = PyVal.dictGet fields "currency".data :=
    dictGet_dictSet_ne _ _ _ _ hne
  refine ⟨?_, ?_, ?_⟩
  · rw [normalize_fields, dictGet_dictSet_ne _ _ _ _ (by decide),
      dictGet_dictSet_self]
    rfl
  · rw [normalize_fields, dictGet_dictSet_self, hcurr]
    rfl
  · intro hnull
    rw [normalize_fields, dictGet_dictSet_ne _ _ _ _ (by decide),
      dictGet_dictSet_self, pyOr, hnull]
    rfl

/-- Witness for C2 at a concrete input: a null model amount and raw
total `$42.00` (the summary's Total is a string, discharging the
domain hypothesis). -/
theorem normalization_precedence_witness :
    strOrNone (PyVal.dictGetD [("Total".data, PyVal.str "$42.00".data)] "Total".data
        (PyVal.str [])) = true
    ∧ (PyVal.dictGet [("amount".data, PyVal.none)] "amount".data = PyVal.none →
        PyVal.dictGet (normalize_fields [("amount".data, PyVal.none)]
            [("Total".data, PyVal.str "$42.00".data)]) "amount".data
          = pyOfOptFloat (parse_amount
              (PyVal.dictGet [("Total".data, PyVal.str "$42.00".data)] "Total".data))) :=
  ⟨rfl, (normalization_precedence [("amount".data, PyVal.none)]
    [("Total".data, PyVal.str "$42.00".data)] rfl).2.2⟩

lemma pathA_loop_truthy : ∀ {xs : List PyVal} {t : PyVal},
    pathA_loop xs = Option.some t → t.truthy = true := by
  intro xs
  induction xs with
  | nil => intro t h; cases h
  | cons c rest ih =>
    intro t h
    rcases c with _ | b | n | q | s | ys | fs
    case dict =>
      rw [pathA_loop] at h
      split at h
      · next hc => cases h; exact hc.2
      · exact ih h
    all_goals exact ih (by simpa [pathA_loop] using h)

lemma pathB_inner_truthy : ∀ {cs : List PyVal} {t : PyVal},
    pathB_inner cs = Except.ok (Option.some t) → t.truthy = true := by
  intro cs
  induction cs with
  | nil => intro t h; cases h
  | cons c rest ih =>
    intro t h
    rw [pathB_inner] at h
    rcases hg1 : pyGetE c "type".data PyVal.none with e | tv <;> rw [hg1] at h
    · cases h
    simp only [Except.bind] at h
    rcases hg2 : pyGetE c "text".data PyVal.none with e | x <;> rw [hg2] at h
    · cases h
    simp only [Except.bind] at h
    split at h
    · next hc => cases h; exact hc.2
    · exact ih h

lemma pathB_outer_truthy : ∀ {outs : List PyVal} {t : PyVal},
    pathB_outer outs = Except.ok (Option.some t) → t.truthy = true := by
  intro outs
  induction outs with
  | nil => intro t h; cases h
  | cons out rest ih =>
    intro t h
    rw [pathB_outer] at h
    rcases hg1 : pyGetE out "type".data PyVal.none with e | tv <;> rw [hg1] at h
    · cases h
    simp only [Except.bind] at h
    split at h
    · rcases hg2 : pyGetE out "content".data (PyVal.list []) with e | content <;>
        rw [hg2] at h
      · cases h
      simp only [Except.bind] at h
      rcases hg3 : pyIterE content with e | items <;> rw [hg3] at h
      · cases h
      simp only [Except.bind] at h
      rcases hgi : pathB_inner items with e | r <;> rw [hgi] at h
      · cases h
      simp only [Except.bind] at h
      rcases r with _ | v
      · exact ih h
      · cases h; exact pathB_inner_truthy hgi
    · exact ih h

lemma find_tail_eq (raw : List Char) (parsed : PyVal) :
    (match (find_text parsed).map PyVal.str with
      | Option.some t => if t.truthy then t else PyVal.str raw
      | Option.none => PyVal.str raw)
    = (match find_text parsed with
      | Option.some s => if s.isEmpty then PyVal.str raw else PyVal.str s
      | Option.none => PyVal.str raw) := by
  cases find_text parsed with
  | none => rfl
  | some s => cases s <;> rfl

lemma extract_tail_eq (raw : List Char) (parsed : PyVal) :
    (((pyGetE parsed "outputs".data (PyVal.list [])).bind fun outputs =>
      match outputs with
      | PyVal.list outs => pathB_outer outs
      | _ => Except.ok Option.none).bind fun t2 =>
        Except.ok (match (match t2 with
          | Option.some t => Option.some t
          | Option.none => (find_text parsed).map PyVal.str) with
          | Option.some t => if t.truthy then t else PyVal.str raw
          | Option.none => PyVal.str raw))
    = ((pathB parsed).bind fun b =>
        match b with
        | Option.some t => Except.ok t
        | Option.none => Except.ok (match find_text parsed with
            | Option.some s => if s.isEmpty then PyVal.str raw else PyVal.str s
            | Option.none => PyVal.str raw)) := by
  simp only [pathB]
  rcases h3 : pyGetE parsed "outputs".data (PyVal.list []) with e | outputs
  · rfl
  simp only [Except.bind]
  have hfind := find_tail_eq raw parsed
  rcases outputs with _ | b | n | q | s | outs | fs
  case list =>
    rcases hB : pathB_outer outs with e | r
    · simp only [hB]
    rcases r with _ | t2
    · simp only [hB]
      exact congrArg Except.ok hfind
    · have ht := pathB_outer_truthy hB
      simp only [hB, ht, if_true]
  all_goals exact congrArg Except.ok hfind

/-- Claim C3: extraction attempts the newer-schema path (a), the
older-schema path (b) and the recursive search (c) in that order, the
first successful (truthy) match winning; the raw string is used directly
when the envelope does not decode, and is the fallback when no path
yields a truthy text. -/
theorem call_bedrock_extract_priority :
    ∀ raw : List Char,
      call_bedrock_extract raw
        = match json_loads raw with
          | Option.none => Except.ok (PyVal.str raw)
          | Option.some parsed =>
            (pathA parsed).bind fun a =>
            match a with
            | Option.some t => Except.ok t
            | Option.none =>
              (pathB parsed).bind fun b =>
              match b with
              | Option.some t => Except.ok t
              | Option.none =>
                Except.ok (match find_text parsed with
                  | Option.some s =>
                    if s.isEmpty then PyVal.str raw else PyVal.str s
                  | Option.none => PyVal.str raw) := by
  intro raw
  cases hj : json_loads raw with
  | none => simp [call_bedrock_extract, hj]
  | some parsed =>
    simp only [call_bedrock_extract, hj, pathA]
    rcases h1 : pyGetE parsed "output".data (PyVal.dict []) with e | outputVal
    · rfl
    simp only [Except.bind]
    rcases h2 : pyGetE outputVal "content".data (PyVal.list []) with e | content
    · rfl
    simp only [Except.bind]
    have tailEq := extract_tail_eq raw parsed
    rcases content with _ | b | n | q | s | xs | fs
    case list =>
      rcases hA : pathA_loop xs with _ | t
      · simp only [hA, Option.isSome, Bool.false_eq_true, if_false]
        exact tailEq
      · have ht := pathA_loop_truthy hA
        simp only [hA, Option.isSome, if_true, Except.bind, ht]
    all_goals
      simp only [Option.isSome, Bool.false_eq_true, if_false]
    all_goals exact tailEq

lemma classifyAndSet_fields (acc : TSummary) (t v : List Char) :
    (classifyAndSet acc t v).vendor
      = (if classify t = Option.some Cat.vendor then Option.some v else acc.vendor)
    ∧ (classifyAndSet acc t v).total
      = (if classify t = Option.some Cat.total then Option.some v else acc.total)
    ∧ (classifyAndSet acc t v).date
      = (if classify t = Option.some Cat.date then Option.some v else acc.date)
    ∧ (classifyAndSet acc t v).items = acc.items := by
  unfold classifyAndSet classify
  split_ifs <;> simp_all

lemma processField_eq (acc : TSummary) (field : PyVal) :
    processField acc field
      = (fieldTV field).bind fun tv => Except.ok (classifyAndSet acc tv.1 tv.2) := by
  unfold processField fieldTV
  rcases h1 : getTextStripped field "Type".data with e | t0
  · rfl
  simp only [Except.bind]
  rcases h2 : getTextStripped field "ValueDetection".data with e | v0
  · rfl
  simp only [Except.bind]
  by_cases hv : v0.isEmpty
  · simp only [hv, if_true]
    rcases h3 : getTextStripped field "LabelDetection".data with e | v <;> rfl
  · simp only [hv, Bool.false_eq_true, if_false, Except.bind]

lemma lastSet_cons (tv : List Char × List Char) (tvs : List (List Char × List Char))
    (c : Cat) (init : Option (List Char)) :
    lastSet (tv :: tvs) c init
      = lastSet tvs c (if classify tv.1 = Option.some c then Option.some tv.2 else init) :=
  rfl

lemma processFields_lastWins :
    ∀ (fields : List PyVal) (acc : TSummary),
      processFields acc fields
        = (tvsOf fields).bind fun tvs =>
            Except.ok ⟨lastSet tvs Cat.vendor acc.vendor, lastSet tvs Cat.total acc.total,
              lastSet tvs Cat.date acc.date, acc.items⟩ := by
  intro fields
  induction fields with
  | nil => intro acc; cases acc; rfl
  | cons f rest ih =>
    intro acc
    show (processField acc f).bind _ = _
    rw [processField_eq]
    rcases hf : fieldTV f with e | tv
    · simp [tvsOf, hf, Except.bind]
    · simp only [tvsOf, hf, Except.bind]
      rw [ih]
      rcases htv : tvsOf rest with e | tvs
      · rfl
      simp only [Except.bind]
      obtain ⟨h1, h2, h3, h4⟩ := classifyAndSet_fields acc tv.1 tv.2
      rw [h1, h2, h3, h4, lastSet_cons, lastSet_cons, lastSet_cons]

/-- Claim C7: the primary extraction uses only the first document — two
responses agreeing on the first document extract identically — and over
the summary fields it computes, per category, the value of the last
field classified into that category (classification by the lower-cased
type text, value text preferred and label text used when the value is
empty, as embodied by `classify` and `fieldTV`). -/
theorem textract_primary_first_doc_last_wins :
    (∀ (d : PyVal) (ds ds' : List PyVal),
      docsPhase (PyVal.list (d :: ds)) = docsPhase (PyVal.list (d :: ds')))
    ∧ (∀ (fields : List PyVal) (acc : TSummary),
        processFields acc fields
          = (tvsOf fields).bind fun tvs =>
              Except.ok ⟨lastSet tvs Cat.vendor acc.vendor, lastSet tvs Cat.total acc.total,
                lastSet tvs Cat.date acc.date, acc.items⟩) := by
  constructor
  · intro d ds ds'
    simp [docsPhase, PyVal.truthy, pyIndex0, Except.bind]
  · exact processFields_lastWins

lemma seqFallback_record (txt : List Char) (p : TSummary) :
    seqFallback txt p
    = { vendor := p.vendor,
        items := p.items,
        total := (if falsyOpt p.total then
            (match firstTotalMatch txt with
             | Option.some m => Option.some m
             | Option.none => p.total)
          else p.total),
        date := (if falsyOpt p.date then
            (match firstDateMatch txt with
             | Option.some m => Option.some m
             | Option.none => p.date)
          else p.date) } := by
  obtain ⟨v, t, d, i⟩ := p
  unfold seqFallback
  simp only []
  by_cases ht : falsyOpt t = true
  · rw [if_pos ht, if_pos ht]
    rcases firstTotalMatch txt with _ | m <;>
      simp only [] <;>
      (by_cases hd : falsyOpt d = true
       · rw [if_pos hd, if_pos hd]
         rcases firstDateMatch txt with _ | m2 <;> rfl
       · rw [if_neg hd, if_neg hd])
  · rw [if_neg ht, if_neg ht]
    by_cases hd : falsyOpt d = true
    · rw [if_pos hd, if_pos hd]
      rcases firstDateMatch txt with _ | m2 <;> rfl
    · rw [if_neg hd, if_neg hd]

/-- Claim C8: the whole parse is the primary phase followed by the
serialized-blob fallback, which fills only the fields the primary phase
left falsy — `total` from the first currency-symbol-amount match and
`date` from the first day-month-year match anywhere in the dumped
response — and never overwrites a non-falsy primary value; vendor and
items pass through untouched. -/
theorem textract_fallback_only_unset :
    ∀ response : PyVal,
      parse_textract_expense response
        = (primaryPhase response).bind fun p =>
            Except.ok
              { vendor := p.vendor,
                items := p.items,
                total := (if falsyOpt p.total then
                    (match firstTotalMatch (pyDumps response) with
                     | Option.some m => Option.some m
                     | Option.none => p.total)
                  else p.total),
                date := (if falsyOpt p.date then
                    (match firstDateMatch (pyDumps response) with
                     | Option.some m => Option.some m
                     | Option.none => p.date)
                  else p.date) } := by
  intro response
  have decomp : parse_textract_expense response
      = (primaryPhase response).bind fun p =>
          Except.ok (seqFallback (pyDumps response) p) := by
    unfold parse_textract_expense primaryPhase
    rcases h0 : pyGetE response "ExpenseDocuments".data (PyVal.list []) with e | docs
    · rfl
    simp only [Except.bind, docsPhase]
    by_cases hd : docs.truthy = true
    · rw [if_pos hd, if_pos hd]
      rcases h1 : pyIndex0 docs with e | doc
      · rfl
      simp only [Except.bind, docPhase]
    · rw [if_neg hd, if_neg hd]
  rw [decomp]
  exact congrArg (Except.bind (primaryPhase response))
    (funext fun p => congrArg Except.ok (seqFallback_record (pyDumps response) p))

lemma nonIterable_of_strOrNone {v : PyVal} (h : strOrNone v = true) :
    nonIterable v = false := by
  cases v <;> simp_all [strOrNone, nonIterable]

/-- The unguarded line-252 raise path of the handler: with a falsy model
currency and a truthy non-iterable raw total, the TypeError propagates
before the artifact-write span — no artifact is written and no error
marker is attempted. -/
lemma lambda_handler_model_line252_raise (key : List Char)
    (sd : List (List Char × PyVal)) (raw : List Char) (fs : List (List Char × PyVal))
    (putOutcome : List Char → Option PyErr)
    (hk1 : TEXTRACT_PREFIX.isPrefixOf key = true)
    (hk2 : strEndsWith key ".summary.json".data = true)
    (hsd : promptable (PyVal.dict sd) = true)
    (hfs : (parse_bedrock_output raw).2 = PyVal.dict fs)
    (hcur : (PyVal.dictGet (PyVal.dictSet fs "amount".data
        (pyOfOptFloat (parse_amount
          (pyOr (PyVal.dictGet fs "amount".data)
            (PyVal.dictGet sd "Total".data))))) "currency".data).truthy = false)
    (hni : nonIterable (PyVal.dictGetD sd "Total".data (PyVal.str [])) = true) :
    lambda_handler_model key (Except.ok (PyVal.dict sd)) (Except.ok raw) putOutcome
      = (Except.error PyErr.typeError, []) := by
  simp [lambda_handler_model, normalize_fields_checked, hk1, hk2, hsd, hfs, hcur, hni]

/-- Claim C9: on summaries whose raw `Total` is a string or None (the
spec's ExpenseSummary domain, under which the unguarded normalization
between the two spans cannot raise), a failure in the Bedrock-call/parse
span or in the artifact-write span makes the handler attempt the
`<base>.error.txt` marker instead of (further) successful outputs and
re-raise the original failure; a failure of the marker write itself
changes neither the re-raised error nor the rest of the trace (the
conclusions hold for every `putOutcome (errKeyOf key)`). -/
theorem model_stage_error_handling (key : List Char) (sd : List (List Char × PyVal))
    (bedrockResult : Except PyErr (List Char))
    (putOutcome : List Char → Option PyErr)
    (hk1 : TEXTRACT_PREFIX.isPrefixOf key = true)
    (hk2 : strEndsWith key ".summary.json".data = true)
    (hsd : promptable (PyVal.dict sd) = true)
    (hT : strOrNone (PyVal.dictGetD sd "Total".data (PyVal.str [])) = true) :
    (∀ e, bedrockResult = Except.error e →
      lambda_handler_model key (Except.ok (PyVal.dict sd)) bedrockResult putOutcome
        = (Except.error e, [(errKeyOf key, (putOutcome (errKeyOf key)).isNone)]))
    ∧ (∀ raw fs e, bedrockResult = Except.ok raw →
        (parse_bedrock_output raw).2 = PyVal.dict fs →
        putOutcome (sumKeyOf key) = Option.some e →
        lambda_handler_model key (Except.ok (PyVal.dict sd)) bedrockResult putOutcome
          = (Except.error e,
             [(sumKeyOf key, false), (errKeyOf key, (putOutcome (errKeyOf key)).isNone)]))
    ∧ (∀ raw fs e, bedrockResult = Except.ok raw →
        (parse_bedrock_output raw).2 = PyVal.dict fs →
        putOutcome (sumKeyOf key) = Option.none →
        putOutcome (bedKeyOf key) = Option.some e →
        lambda_handler_model key (Except.ok (PyVal.dict sd)) bedrockResult putOutcome
          = (Except.error e,
             [(sumKeyOf key, true), (bedKeyOf key, false),
              (errKeyOf key, (putOutcome (errKeyOf key)).isNone)]))
    ∧ (∀ raw fs, bedrockResult = Except.ok raw →
        (parse_bedrock_output raw).2 = PyVal.dict fs →
        putOutcome (sumKeyOf key) = Option.none →
        putOutcome (bedKeyOf key) = Option.none →
        lambda_handler_model key (Except.ok (PyVal.dict sd)) bedrockResult putOutcome
          = (Except.ok "Success".data, [(sumKeyOf key, true), (bedKeyOf key, true)])) := by
  have hni := nonIterable_of_strOrNone hT
  refine ⟨?_, ?_, ?_, ?_⟩
  · intro e hb
    simp [lambda_handler_model, hk1, hk2, hsd, hb]
  · intro raw fs e hb hfs hput
    simp [lambda_handler_model, normalize_fields_checked, hk1, hk2, hsd, hb, hfs,
      hput, hni]
  · intro raw fs e hb hfs h1 h2
    simp [lambda_handler_model, normalize_fields_checked, hk1, hk2, hsd, hb, hfs,
      h1, h2, hni]
  · intro raw fs hb hfs h1 h2
    simp [lambda_handler_model, normalize_fields_checked, hk1, hk2, hsd, hb, hfs,
      h1, h2, hni]

/-- Witness for C9: a failing Bedrock call on a well-formed trigger and
an empty (hence string-or-None-totalled) summary writes the error marker
(successfully here) and re-raises the original failure. -/
theorem model_stage_error_handling_witness :
    lambda_handler_model "textract-output/foo.jpg.summary.json".data
        (Except.ok (PyVal.dict [])) (Except.error (PyErr.oracle 7))
        (fun _ => Option.none)
      = (Except.error (PyErr.oracle 7),
         [(errKeyOf "textract-output/foo.jpg.summary.json".data, true)]) :=
  (model_stage_error_handling "textract-output/foo.jpg.summary.json".data []
      (Except.error (PyErr.oracle 7)) (fun _ => Option.none)
      (by decide) (by decide) (by decide) (by decide)).1 (PyErr.oracle 7) rfl

-- Scratch checks
example : parse_amount (.str "₹1,234.50".data) = Option.some (2469/2 : ℚ) := by
  have h : parse_amount (.str "₹1,234.50".data)
      = Option.some (((1234 : ℕ) : ℚ) + ((50 : ℕ) : ℚ) / ((10 : ℚ) ^ (2 : ℕ))) := rfl
  rw [h]; norm_num

example : parse_amount .none = Option.none := rfl

example : parse_amount (.str "garbage".data) = Option.none := rfl

example : parse_amount (.int 5) = Option.some 5 := by
  have h : parse_amount (.int 5)
      = Option.some (((5 : ℕ) : ℚ) + ((0 : ℕ) : ℚ) / ((10 : ℚ) ^ (0 : ℕ))) := rfl
  rw [h]; norm_num

example : parse_amount (.int 0) = Option.none := rfl

example : parse_amount (.str []) = Option.none := rfl

example : extract_currency (Option.some "Rs 500".data) = "INR".data := by decide

example : extract_currency (Option.some "$20".data) = "USD".data := by decide

example : extract_currency (Option.some "".data) = [] := by decide

example : extract_currency (Option.some "₹5 and $2".data) = "INR".data := by decide

-- Scratch checks for the JSON model and the output parser
example : json_loads "null".data = Option.some PyVal.none := rfl

example : json_loads " \x7b\"a\": 1\x7d ".data
    = Option.some (PyVal.dict [("a".data, PyVal.int 1)]) := rfl

example : json_loads "\x7b\"a\":1\x7dx".data = Option.none := rfl

example : json_loads "[1, 2]".data
    = Option.some (PyVal.list [PyVal.int 1, PyVal.int 2]) := rfl

example : json_loads "\"hi\\n\"".data = Option.some (PyVal.str "hi\n".data) := rfl

example : json_loads "\x7b\"v\":\"Cafe\",\"amount\":5\x7d".data
    = Option.some (PyVal.dict [("v".data, PyVal.str "Cafe".data),
        ("amount".data, PyVal.int 5)]) := rfl

example : pySplit "Bought coffee\n===JSON===\n\x7b\x7d".data sepToken
    = ["Bought coffee\n".data, "\n\x7b\x7d".data] := rfl

example : braceSpan "ab \x7b1\x7d cd \x7b2\x7d e".data = Option.some "\x7b1\x7d cd \x7b2\x7d".data := rfl

example : braceSpan "no braces".data = Option.none := rfl

example : parse_bedrock_output "Bought coffee\n===JSON===\n\x7b\"vendor\":\"Cafe\",\"amount\":5\x7d".data
    = ("Bought coffee".data,
       PyVal.dict [("vendor".data, PyVal.str "Cafe".data), ("amount".data, PyVal.int 5)]) := rfl

example : parse_bedrock_output "no separator here".data
    = ("no separator here".data, PyVal.dict []) := rfl

example : parse_bedrock_output "S===JSON===null".data = ("S".data, PyVal.none) := rfl

example : parse_bedrock_output "S===JSON===bad \x7b\"a\":2\x7d".data
    = ("S".data, PyVal.dict [("a".data, PyVal.int 2)]) := rfl

example : call_bedrock_extract "not json at all".data
    = Except.ok (PyVal.str "not json at all".data) := rfl

example : call_bedrock_extract
    "\x7b\"output\":\x7b\"content\":[\x7b\"type\":\"text\",\"text\":\"hi\"\x7d]\x7d\x7d".data
    = Except.ok (PyVal.str "hi".data) := rfl

example : call_bedrock_extract
    "\x7b\"outputs\":[\x7b\"type\":\"message\",\"content\":[\x7b\"type\":\"text\",\"text\":\"old\"\x7d]\x7d]\x7d".data
    = Except.ok (PyVal.str "old".data) := rfl

example : call_bedrock_extract "[1,2]".data = Except.error () := rfl

example : pyDumps (PyVal.dict [("a".data, PyVal.str "$5".data)])
    = "\x7b\"a\": \"$5\"\x7d".data := rfl

example : pyDumps (PyVal.dict [("k".data, PyVal.list [PyVal.int 1, PyVal.none,
      PyVal.bool true])]) = "\x7b\"k\": [1, null, true]\x7d".data := rfl

example : pyDumps (PyVal.str ['₹']) = "\"\\u20b9\"".data := rfl

example : firstTotalMatch "x $ 12,345.67 y".data = Option.some "$ 12,345.67".data := rfl

example : firstTotalMatch "no money".data = Option.none := rfl

example : firstTotalMatch "\x7b\"a\": \"$5.00\"\x7d".data = Option.some "$5.00".data := rfl

example : firstTotalMatch "$5\x7d x".data = Option.some "$5\x7d".data := rfl

example : firstDateMatch "on 12/31/2023 x".data = Option.some "12/31/2023".data := rfl

example : firstDateMatch "a1/2/34".data = Option.none := rfl

example : firstDateMatch "1-2-34".data = Option.some "1-2-34".data := rfl

example : firstTotalMatch "$ x 12".data = Option.none := rfl

example : firstTotalMatch "$12345".data = Option.some "$12345".data := rfl

example : firstTotalMatch "$1.2".data = Option.some "$1".data := rfl

example : firstTotalMatch "$1.234".data = Option.some "$1.23".data := rfl

example : firstDateMatch "1 2 34".data = Option.some "1 2 34".data := rfl

example : firstDateMatch "123/4/56".data = Option.none := rfl

example : firstDateMatch "1/2/12345".data = Option.none := rfl

example : firstDateMatch "x 5/6/789".data = Option.some "5/6/789".data := rfl

example : parse_textract_expense (PyVal.dict [])
    = Except.ok ⟨Option.none, Option.none, Option.none, []⟩ := rfl

example : parse_textract_expense (PyVal.dict [("ExpenseDocuments".data,
      PyVal.list [PyVal.dict [("SummaryFields".data, PyVal.list [PyVal.dict
        [("Type".data, PyVal.dict [("Text".data, PyVal.str "MERCHANT_NAME".data)]),
         ("ValueDetection".data, PyVal.dict [("Text".data, PyVal.str "Acme".data)])]])]])])
    = Except.ok ⟨Option.some "Acme".data, Option.none, Option.none, []⟩ := rfl

example : parse_textract_expense (PyVal.dict [("ExpenseDocuments".data, PyVal.list []),
      ("X".data, PyVal.str "Total $10.00 on 1/2/23".data)])
    = Except.ok ⟨Option.none, Option.some "$10.00".data,
        Option.some "1/2/23".data, []⟩ := rfl

-- The unguarded line-252 TypeError: an integer raw Total with a falsy
-- model currency propagates with no writes and no marker.
example : lambda_handler_model "textract-output/a.jpg.summary.json".data
      (Except.ok (PyVal.dict [("Total".data, PyVal.int 5)]))
      (Except.ok "S".data) (fun _ => Option.none)
    = (Except.error PyErr.typeError, []) := rfl

-- A truthy model currency short-circuits line 252, so the same integer
-- Total reaches the write span and the handler succeeds.
example : lambda_handler_model "textract-output/a.jpg.summary.json".data
      (Except.ok (PyVal.dict [("Total".data, PyVal.int 5)]))
      (Except.ok "S===JSON===\x7b\"currency\": \"EUR\"\x7d".data) (fun _ => Option.none)
    = (Except.ok "Success".data,
       [(sumKeyOf "textract-output/a.jpg.summary.json".data, true),
        (bedKeyOf "textract-output/a.jpg.summary.json".data, true)]) := rfl

end Receipt
